import Mathlib

/-!
Verification development for the chart.js Chart Computation Engine.

The source is a single JavaScript module exposing seven chart entry points
(`createFunctionGraph`, `createPolarGraph`, `createLineChart`, `createPieChart`,
`createBarChart`, `createScatterPlot`, `createNormalDistributionChart`) plus a
`ChartUtils` record of helpers (`hexToARGB`, `calculateLinearRegression`,
`pdf`, ...).

Embedding conventions:
* JavaScript numbers are embedded as `ℚ` wherever the code stays in exact
  arithmetic on the inputs; square roots, the Gaussian `exp`, and the polar
  `cos`/`sin` are the only irrational operations and are embedded as `ℝ`-valued
  functions kept out of the computable command structure.
* A JavaScript function returning `null` on failure is embedded as an
  `Option`-valued function; `none` is the failure marker.
* The Android canvas is embedded as an ordered list of `DrawCmd` values: the
  sequence of draw calls the invocation issues.  File-system and bitmap
  side effects (directory creation, PNG compression, the auto-delete timer)
  are external collaborators and are not modelled.
* The formula evaluator (`new Function(...)`) is embedded as an abstract
  function from the sample coordinate to an `EvalOutcome`: it can throw,
  return a non-finite number, or return a finite value.
-/

namespace Chart

/-- Outcome of evaluating the user formula at one sample point: the evaluator
can throw, yield a non-finite number (`NaN`/`±Infinity`), or yield a finite
value. -/
inductive EvalOutcome where
  | throws : EvalOutcome
  | nonFinite : EvalOutcome
  | finite (y : ℚ) : EvalOutcome
deriving DecidableEq, Repr

/-- A data point `{x, y}` (line chart, scatter plot). -/
structure Point where
  x : ℚ
  y : ℚ
deriving DecidableEq, Repr

/-- A category datum `{label, value}` (bar chart, pie chart). -/
structure CategoryDatum where
  label : String
  value : ℚ
deriving DecidableEq, Repr

/-- A confidence-level entry of `confidenceLevels` (normal-distribution
chart): `{ level, color }`. -/
structure ConfidenceLevel where
  level : ℚ
  color : String
deriving DecidableEq, Repr

/-- Bar-chart orientation option. -/
inductive Orientation where
  | vertical : Orientation
  | horizontal : Orientation
deriving DecidableEq, Repr

/-! ## ColorCodec: `ChartUtils.hexToARGB`

The source parses the hex digits after an optional `#` with
`parseInt(..., 16)` and extracts channels with the JavaScript 32-bit signed
shift `>>` followed by `& 0xFF`.  `parseInt` consumes the longest prefix of
valid hex digits (an empty prefix gives `NaN`, and `ToInt32(NaN) = 0`, which
the embedding reproduces by parsing the empty prefix as `0`).  The shift
first coerces the parsed number through `ToInt32` (two's-complement wrap into
`[-2^31, 2^31)`), then arithmetic-shifts (floor division by a power of two);
`& 0xFF` is the nonnegative remainder mod 256. -/

/-- Numeric value of one hex digit, or `none` for a non-digit (the code
points are those of `0`–`9`, `a`–`f`, `A`–`F`). -/
def hexDigitVal (c : Char) : Option ℕ :=
  if 48 ≤ c.toNat ∧ c.toNat ≤ 57 then some (c.toNat - 48)
  else if 97 ≤ c.toNat ∧ c.toNat ≤ 102 then some (c.toNat - 97 + 10)
  else if 65 ≤ c.toNat ∧ c.toNat ≤ 70 then some (c.toNat - 65 + 10)
  else none

/-- `parseInt(s, 16)`: accumulate the longest prefix of hex digits
(empty prefix ↦ 0, standing for `NaN` whose `ToInt32` image is 0). -/
def parseHexNat : List Char → ℕ → ℕ
  | [], acc => acc
  | c :: cs, acc =>
    match hexDigitVal c with
    | some d => parseHexNat cs (16 * acc + d)
    | none => acc

/-- `hex.replace(/^#/, '')`: strip one leading `#`. -/
def stripHash : List Char → List Char
  | [] => []
  | c :: rest => if c = '#' then rest else c :: rest

/-- JavaScript `ToInt32`: wrap a nonnegative number into `[-2^31, 2^31)`
two's-complement style. -/
def jsToInt32 (v : ℕ) : ℤ :=
  let m : ℕ := v % 2 ^ 32
  if m < 2 ^ 31 then (m : ℤ) else (m : ℤ) - 2 ^ 32

/-- JavaScript `(w >> s) & 0xFF` on an int32 `w`: arithmetic shift right
(floor division by `2^s`) followed by the low byte. -/
def jsShrByte (w : ℤ) (s : ℕ) : ℤ :=
  (Int.fdiv w (2 ^ s)) % 256

/-- `ChartUtils.hexToARGB`: decode `#AARRGGBB` (string length 9) or
`#RRGGBB` (any other length, alpha forced to `0xFF = 255`) into
`[alpha, red, green, blue]`. -/
def hexToARGB (hex : String) : List ℤ :=
  let v := parseHexNat (stripHash hex.data) 0
  let w := jsToInt32 v
  if hex.length = 9 then
    [jsShrByte w 24, jsShrByte w 16, jsShrByte w 8, w % 256]
  else
    [255, jsShrByte w 16, jsShrByte w 8, w % 256]

/-! ## StatisticsEngine: `ChartUtils.calculateLinearRegression` -/

/-- Result record of `calculateLinearRegression`.  The source stores
`residualStdErr = Math.sqrt(ssr / (n - 2))`; since `ℚ` has no square root the
record keeps the radicand sum of squared residuals `ssr` and the real-valued
`residualStdErr` is exposed as a function of the record (`0` in the `n < 3`
branch, where the source writes the literal `0` and this record stores
`ssr = 0`). -/
structure RegressionResult where
  slope : ℚ
  intercept : ℚ
  n : ℕ
  meanX : ℚ
  Sxx : ℚ
  ssr : ℚ
deriving DecidableEq, Repr

/-- Denominator `n*Σx² - (Σx)²` of the least-squares slope. -/
def regressionDenominator (data : List Point) : ℚ :=
  (data.length : ℚ) * (data.map (fun p => p.x * p.x)).sum
    - (data.map (fun p => p.x)).sum * (data.map (fun p => p.x)).sum

/-- `ChartUtils.calculateLinearRegression`: ordinary least squares.  Returns
`none` when `n < 2` or the denominator is exactly `0`; for `2 ≤ n < 3` the
band-related fields are `0`; for `n ≥ 3` it also accumulates
`Sxx = Σ(x-x̄)²` and the sum of squared residuals. -/
def calculateLinearRegression (data : List Point) : Option RegressionResult :=
  let n := data.length
  if n < 2 then none
  else
    let sumX := (data.map (fun p => p.x)).sum
    let sumY := (data.map (fun p => p.y)).sum
    let sumXY := (data.map (fun p => p.x * p.y)).sum
    let sumX2 := (data.map (fun p => p.x * p.x)).sum
    let denominator := (n : ℚ) * sumX2 - sumX * sumX
    if denominator = 0 then none
    else
      let meanX := sumX / (n : ℚ)
      let meanY := sumY / (n : ℚ)
      let slope := ((n : ℚ) * sumXY - sumX * sumY) / denominator
      let intercept := meanY - slope * meanX
      if n < 3 then some ⟨slope, intercept, n, meanX, 0, 0⟩
      else
        let Sxx := (data.map (fun p => (p.x - meanX) * (p.x - meanX))).sum
        let ssr :=
          (data.map (fun p =>
            (p.y - (slope * p.x + intercept)) * (p.y - (slope * p.x + intercept)))).sum
        some ⟨slope, intercept, n, meanX, Sxx, ssr⟩

/-- `residualStdErr = Math.sqrt(ssr / (n - 2))` as stored by the source.  In
the `n < 3` branch the record holds `ssr = 0` and (with Lean's `0/0 = 0`
convention) this evaluates to `Real.sqrt 0 = 0`, the literal the source
stores there. -/
noncomputable def residualStdErr (r : RegressionResult) : ℝ :=
  Real.sqrt ((r.ssr : ℝ) / ((r.n : ℝ) - 2))

/-- `ChartUtils.pdf`: Gaussian density, `0` when `stdDev ≤ 0`. -/
noncomputable def pdf (x mean stdDev : ℝ) : ℝ :=
  if stdDev ≤ 0 then 0
  else (1 / (stdDev * Real.sqrt (2 * Real.pi))) *
    Real.exp (-((x - mean) * (x - mean)) / (2 * stdDev * stdDev))

/-! ## FunctionSampler: the graph-path loops

The cartesian loop of `createFunctionGraph` walks pixel columns
`i = 0, …, width-1`; the polar loop of `createPolarGraph` walks angle steps
`angle = 0, 0.5, …, < 360*rotations` (step index `k`, angle `k/2` degrees).
Both build an Android `Path` out of `moveTo`/`lineTo` calls.  The loops are
embedded over the list of per-sample evaluator outcomes, producing flagged
samples `(isMove, index, value)`; the orchestrators map these to coordinates.

Crucially, the two loops differ on a throwing evaluator:
* the cartesian loop calls `formulaFunc(mathX)` with no per-sample
  `try`/`catch`, so a throw propagates to the function-level handler
  (embedded as the whole loop returning `none`);
* the polar loop wraps the call in `try { … } catch (e) { isPathStarted =
  false; continue; }`, so a throw only breaks the current segment.
Both treat a non-finite result as a segment break. -/

/-- Cartesian sampling loop of `createFunctionGraph` (source lines 253–269),
over the listed `(pixelIndex, outcome)` samples with the `firstPoint` flag
(initially `true`).  A throwing sample propagates out of the loop: the whole
result is `none`. -/
def cartSampleLoop : List (ℕ × EvalOutcome) → Bool → Option (List (Bool × ℕ × ℚ))
  | [], _ => some []
  | (_, .throws) :: _, _ => none
  | (_, .nonFinite) :: rest, _ => cartSampleLoop rest true
  | (i, .finite y) :: rest, firstPoint =>
    (cartSampleLoop rest false).map (fun tl => (firstPoint, i, y) :: tl)

/-- Polar sampling loop of `createPolarGraph` (source lines 377–405), over
the listed `(stepIndex, outcome)` samples with the `isPathStarted` flag
(initially `false`).  Both a throw and a non-finite value reset the flag and
skip the sample. -/
def polarSampleLoop : List (ℕ × EvalOutcome) → Bool → List (Bool × ℕ × ℚ)
  | [], _ => []
  | (_, .throws) :: rest, _ => polarSampleLoop rest false
  | (_, .nonFinite) :: rest, _ => polarSampleLoop rest false
  | (k, .finite r) :: rest, started => (!started, k, r) :: polarSampleLoop rest true

/-- Whether a sample list has at least one throwing sample. -/
def hasThrow (l : List (ℕ × EvalOutcome)) : Bool :=
  l.any (fun p => match p.2 with | .throws => true | _ => false)

/-- Whether the first sample of the list is a valid (finite) one. -/
def headValid : List (ℕ × EvalOutcome) → Bool
  | (_, .finite _) :: _ => true
  | _ => false

/-- Specification-side segmentation (spec §4.3): split the sample list into
the maximal runs of consecutive valid samples, dropping throwing and
non-finite samples; each run is one polyline segment. -/
def finiteRuns : List (ℕ × EvalOutcome) → List (List (ℕ × ℚ))
  | [] => []
  | (k, .finite y) :: rest =>
    if headValid rest then
      match finiteRuns rest with
      | r :: rs => ((k, y) :: r) :: rs
      | [] => [[(k, y)]]
    else [(k, y)] :: finiteRuns rest
  | (_, .throws) :: rest => finiteRuns rest
  | (_, .nonFinite) :: rest => finiteRuns rest

/-- Specification-side path of a run list: each segment starts with a
`moveTo` (flag `true`) at its first valid sample and continues with `lineTo`
(flag `false`) steps. -/
def segJoin (runs : List (List (ℕ × ℚ))) : List (Bool × ℕ × ℚ) :=
  runs.flatMap (fun r =>
    match r with
    | [] => []
    | p :: ps => (true, p.1, p.2) :: ps.map (fun q => (false, q.1, q.2)))

/-- Turn the first flagged sample of a path into a `lineTo` step (used to
state the loop invariant for an already-started path). -/
def demoteFirst : List (Bool × ℕ × ℚ) → List (Bool × ℕ × ℚ)
  | (_, k, y) :: rest => (false, k, y) :: rest
  | [] => []

/-! ## Drawing commands

One invocation issues an ordered list of canvas calls.  Paints are reduced to
their ARGB channel list.  Two abstractions, noted where used: the filled
polygon of a confidence band is identified by its defining parameters rather
than its interior sample points (those come from the `ℝ`-valued `pdf` and
`residualStdErr`/`Real.sqrt` and are recorded by separate `ℝ`-level
definitions), and text is kept as the labelled datum the source stringifies. -/

/-- One canvas draw call. -/
inductive DrawCmd where
  /-- `canvas.drawPaint(bgPaint)`. -/
  | clearBg (argb : List ℤ)
  /-- `canvas.drawLine(x1, y1, x2, y2, paint)`. -/
  | strokeLine (x1 y1 x2 y2 : ℚ) (argb : List ℤ)
  /-- `canvas.drawPath` of a cartesian path: flagged steps
  `(isMove, x, y)` in canvas coordinates. -/
  | cartPath (steps : List (Bool × ℚ × ℚ)) (argb : List ℤ)
  /-- `canvas.drawPath` of the polar graph path: flagged steps
  `(isMove, stepIndex, radius)`; the canvas point of a step is
  `polarCanvasX`/`polarCanvasY` below. -/
  | polarPath (steps : List (Bool × ℕ × ℚ)) (argb : List ℤ)
  /-- `canvas.drawCircle(cx, cy, radius, paint)`. -/
  | fillCircle (cx cy radius : ℚ) (argb : List ℤ)
  /-- `canvas.drawRect(left, top, right, bottom, paint)`. -/
  | fillRect (left top right bottom : ℚ) (argb : List ℤ)
  /-- `canvas.drawArc(chartRect, startAngle, sweepAngle, true, paint)`
  (pie slice). -/
  | fillArc (startAngle sweepAngle : ℚ) (argb : List ℤ)
  /-- `canvas.drawText(label, x, y, paint)` for a string datum. -/
  | textLabel (s : String) (x y : ℚ)
  /-- `canvas.drawText(String(v), x, y, paint)` / `drawText(v.toFixed(1), …)`
  for a numeric datum, carrying the number itself. -/
  | textValue (v : ℚ) (x y : ℚ)
  /-- Pie legend text `` `${label} (${percentage}%)` ``. -/
  | legendEntry (label : String) (percentage : ℚ) (x y : ℚ)
  /-- Normal-distribution confidence-band polygon for one resolved level:
  `ciPath` built from `(startPixel, baseline)` over the cached pdf curve to
  `(endPixel, baseline)` and closed, then `canvas.drawPath(ciPath,
  confidencePaint)`.  The interior curve samples (from `pdf`) are abstracted;
  the polygon is identified by level, z-score, color and pixel bounds. -/
  | bandFill (level z : ℚ) (argb : List ℤ) (startPixel endPixel : ℤ)
  /-- Scatter-plot confidence-band polygon: upper boundary then reversed
  lower boundary, clipped to the plot rect and filled.  The boundary points
  (see `scatterMarginOfError`) are abstracted; the polygon is identified by
  the regression it is built from and the sampling resolution. -/
  | ciBandFill (reg : RegressionResult) (resolution : ℕ)
  /-- The main distribution curve `graphPath` of the normal-distribution
  chart (interior pdf samples abstracted). -/
  | curveStroke (argb : List ℤ)
deriving DecidableEq, Repr

/-- Minimum of a value list (`Infinity`-seeded fold in the source; callers
only use it on nonempty data). -/
def listMin : List ℚ → ℚ
  | [] => 0
  | x :: xs => xs.foldl min x

/-- Maximum of a value list (`-Infinity`-seeded fold in the source; callers
only use it on nonempty data). -/
def listMax : List ℚ → ℚ
  | [] => 0
  | x :: xs => xs.foldl max x

/-! ## `createFunctionGraph` -/

/-- Options of `createFunctionGraph` after merging with its defaults.
`formula` embeds the compiled `new Function('x', …)` evaluator: `none` stands
both for a missing `formula` option and for a formula rejected at
construction time (both return `null` before any drawing). -/
structure FunctionGraphConfig where
  formula : Option (ℚ → EvalOutcome) := none
  width : ℕ := 800
  height : ℕ := 600
  scale : ℚ := 20
  backgroundColor : String := "#FFFFFF"
  axisColor : String := "#CCCCCC"
  lineColor : String := "#FF0000"

/-- The per-column samples of the cartesian loop:
`mathX = (i - centerX) / scale`, `mathY = formulaFunc(mathX)`. -/
def functionGraphSamples (f : ℚ → EvalOutcome) (width : ℕ) (centerX scale : ℚ) :
    List (ℕ × EvalOutcome) :=
  (List.range width).map (fun i => (i, f (((i : ℚ) - centerX) / scale)))

/-- `createFunctionGraph`: background, the two axes, then the sampled graph
path; `none` when the formula is missing/invalid or when a sample evaluation
throws (the loop has no per-sample handler, so the function-level `catch`
returns `null`). -/
def createFunctionGraph (cfg : FunctionGraphConfig) : Option (List DrawCmd) :=
  match cfg.formula with
  | none => none
  | some f =>
    let centerX : ℚ := (cfg.width : ℚ) / 2
    let centerY : ℚ := (cfg.height : ℚ) / 2
    (cartSampleLoop (functionGraphSamples f cfg.width centerX cfg.scale) true).map
      (fun steps =>
        [DrawCmd.clearBg (hexToARGB cfg.backgroundColor),
         DrawCmd.strokeLine 0 centerY (cfg.width : ℚ) centerY (hexToARGB cfg.axisColor),
         DrawCmd.strokeLine centerX 0 centerX (cfg.height : ℚ) (hexToARGB cfg.axisColor),
         DrawCmd.cartPath
           (steps.map (fun s => (s.1, ((s.2.1 : ℚ)), centerY - s.2.2 * cfg.scale)))
           (hexToARGB cfg.lineColor)])

/-! ## `createPolarGraph` -/

/-- Options of `createPolarGraph` after merging with its defaults.  The
evaluator (`new Function('t', 'with(Math){…}')`) takes the angle in radians. -/
structure PolarGraphConfig where
  formula : Option (ℝ → EvalOutcome) := none
  width : ℕ := 1024
  height : ℕ := 1024
  scale : ℚ := 20
  rotations : ℕ := 5
  backgroundColor : String := "#FFFFFF"
  axisColor : String := "#CCCCCC"
  lineColor : String := "#0000FF"

/-- Angle of polar step `k` in radians: `theta = (k * 0.5) * (π / 180)`. -/
noncomputable def polarTheta (k : ℕ) : ℝ := ((k : ℝ) / 2) * (Real.pi / 180)

/-- Canvas x of a polar path step: `centerX + r·cos(θ)·scale`. -/
noncomputable def polarCanvasX (centerX scale : ℚ) (k : ℕ) (r : ℚ) : ℝ :=
  (centerX : ℝ) + (r : ℝ) * Real.cos (polarTheta k) * (scale : ℝ)

/-- Canvas y of a polar path step: `centerY − r·sin(θ)·scale`. -/
noncomputable def polarCanvasY (centerY scale : ℚ) (k : ℕ) (r : ℚ) : ℝ :=
  (centerY : ℝ) - (r : ℝ) * Real.sin (polarTheta k) * (scale : ℝ)

/-- The per-step samples of the polar loop: angles `0, 0.5, …` strictly below
`360 * rotations` degrees, evaluated in radians. -/
noncomputable def polarGraphSamples (f : ℝ → EvalOutcome) (rotations : ℕ) :
    List (ℕ × EvalOutcome) :=
  (List.range (720 * rotations)).map (fun k => (k, f (polarTheta k)))

/-- `createPolarGraph`: background, axes, then the sampled polar path; `none`
only when the formula is missing/invalid.  Per-sample throws are caught
inside the loop. -/
noncomputable def createPolarGraph (cfg : PolarGraphConfig) : Option (List DrawCmd) :=
  match cfg.formula with
  | none => none
  | some f =>
    let centerX : ℚ := (cfg.width : ℚ) / 2
    let centerY : ℚ := (cfg.height : ℚ) / 2
    some
      [DrawCmd.clearBg (hexToARGB cfg.backgroundColor),
       DrawCmd.strokeLine 0 centerY (cfg.width : ℚ) centerY (hexToARGB cfg.axisColor),
       DrawCmd.strokeLine centerX 0 centerX (cfg.height : ℚ) (hexToARGB cfg.axisColor),
       DrawCmd.polarPath (polarSampleLoop (polarGraphSamples f cfg.rotations) false)
         (hexToARGB cfg.lineColor)]

/-! ## `createLineChart` -/

/-- Options of `createLineChart` after merging with its defaults (the nested
`padding` record is flattened into four fields). -/
structure LineChartConfig where
  data : Option (List Point) := none
  width : ℕ := 800
  height : ℕ := 600
  paddingTop : ℚ := 50
  paddingRight : ℚ := 50
  paddingBottom : ℚ := 70
  paddingLeft : ℚ := 80
  backgroundColor : String := "#FFFFFF"
  lineColor : String := "#007BFF"
  pointColor : String := "#DC3545"
  gridColor : String := "#E9ECEF"
  textColor : String := "#495057"
  pointRadius : ℚ := 8
  strokeWidth : ℚ := 5

/-- `createLineChart`: fails fast (`null`) when `data` is missing or has
fewer than 2 points; otherwise draws background, the y-grid with its labels,
the x labels, the polyline, and the data points. -/
def createLineChart (cfg : LineChartConfig) : Option (List DrawCmd) :=
  match cfg.data with
  | none => none
  | some data =>
    if data.length < 2 then none
    else
      let top := cfg.paddingTop
      let right := cfg.paddingRight
      let bottom := cfg.paddingBottom
      let left := cfg.paddingLeft
      let w : ℚ := (cfg.width : ℚ)
      let h : ℚ := (cfg.height : ℚ)
      let minY := listMin (data.map (fun p => p.y))
      let maxY := listMax (data.map (fun p => p.y))
      let yRange := if maxY - minY = 0 then 1 else maxY - minY
      let chartWidth := w - left - right
      let chartHeight := h - top - bottom
      let xInterval := chartWidth / ((data.length : ℚ) - 1)
      let yPos := fun (y : ℚ) => h - bottom - ((y - minY) / yRange) * chartHeight
      let grid := (List.range 6).flatMap (fun i =>
        let value := minY + (yRange / 5) * (i : ℚ)
        [DrawCmd.strokeLine left (yPos value) (w - right) (yPos value)
           (hexToARGB cfg.gridColor),
         DrawCmd.textValue value (left - 10) (yPos value + 8)])
      let xLabels := data.enum.map (fun ip =>
        DrawCmd.textValue ip.2.x (left + (ip.1 : ℚ) * xInterval) (h - bottom + 30))
      let lineSteps : List (Bool × ℚ × ℚ) :=
        match data with
        | [] => []
        | d0 :: rest =>
          (true, left, yPos d0.y) ::
            rest.enum.map (fun jp =>
              (false, left + ((jp.1 : ℚ) + 1) * xInterval, yPos jp.2.y))
      let points := data.enum.map (fun ip =>
        DrawCmd.fillCircle (left + (ip.1 : ℚ) * xInterval) (yPos ip.2.y)
          cfg.pointRadius (hexToARGB cfg.pointColor))
      some ([DrawCmd.clearBg (hexToARGB cfg.backgroundColor)] ++ grid ++ xLabels ++
        [DrawCmd.cartPath lineSteps (hexToARGB cfg.lineColor)] ++ points)

/-! ## `createPieChart` -/

/-- Options of `createPieChart` after merging with its defaults. -/
structure PieChartConfig where
  data : Option (List CategoryDatum) := none
  width : ℕ := 1200
  height : ℕ := 800
  backgroundColor : String := "#FFFFFF"
  textColor : String := "#000000"
  colors : List String :=
    ["#FF6384", "#36A2EB", "#FFCE56", "#4BC0C0", "#9966FF", "#FF9F40"]

/-- The pie-chart empty-state placeholder string (Korean for
"There is no data."). -/
def pieNoDataText : String := "데이터가 없습니다."

/-- Rendering loop of the pie slices and legend rows: slice `i` sweeps
`(value/total)*360` degrees from the accumulated start angle, with its legend
swatch, label and percentage; colors cycle through the palette. -/
def pieSliceCmds (total : ℚ) (argbs : List (List ℤ)) (legendX : ℚ) :
    List CategoryDatum → ℕ → ℚ → ℚ → List DrawCmd
  | [], _, _, _ => []
  | item :: rest, i, startAngle, legendY =>
    let sweepAngle := item.value / total * 360
    let argb := argbs.getD (i % argbs.length) []
    DrawCmd.fillArc startAngle sweepAngle argb ::
    DrawCmd.fillRect legendX legendY (legendX + 40) (legendY + 40) argb ::
    DrawCmd.legendEntry item.label (item.value / total * 100) (legendX + 60) (legendY + 35) ::
    pieSliceCmds total argbs legendX rest (i + 1) (startAngle + sweepAngle) (legendY + 60)

/-- `createPieChart`: `null` when `data` is missing; with a zero total it
draws only the background and the placeholder text; otherwise it draws the
slices and the legend.  The `value/total` divisions occur only on the
nonzero-total branch. -/
def createPieChart (cfg : PieChartConfig) : Option (List DrawCmd) :=
  match cfg.data with
  | none => none
  | some data =>
    let w : ℚ := (cfg.width : ℚ)
    let h : ℚ := (cfg.height : ℚ)
    let totalValue := (data.map (fun d => d.value)).sum
    if totalValue = 0 then
      some [DrawCmd.clearBg (hexToARGB cfg.backgroundColor),
        DrawCmd.textLabel pieNoDataText (w / 2) (h / 2)]
    else
      let chartRadius := (min w h) * (35 / 100)
      let centerX := w * (3 / 10)
      let legendX := centerX + chartRadius + 80
      let legendY := (h - (data.length : ℚ) * 60) / 2
      some (DrawCmd.clearBg (hexToARGB cfg.backgroundColor) ::
        pieSliceCmds totalValue (cfg.colors.map hexToARGB) legendX data 0 (-90) legendY)

/-! ## `createBarChart` -/

/-- Options of `createBarChart` after merging with its defaults. -/
structure BarChartConfig where
  data : Option (List CategoryDatum) := none
  width : ℕ := 1080
  height : ℕ := 720
  orientation : Orientation := Orientation.vertical
  title : String := ""
  backgroundColor : String := "#FFFFFF"
  barColor : String := "#4682B4"
  axisColor : String := "#646464"
  textColor : String := "#000000"
  titleColor : String := "#000000"

/-- The scaling maximum of the bar chart:
`Math.max.apply(null, values) || 1`, i.e. the maximum value with a fallback
to `1` when that maximum is `0`. -/
def barChartMaxValue (data : List CategoryDatum) : ℚ :=
  let m := listMax (data.map (fun d => d.value))
  if m = 0 then 1 else m

/-- Bar, label and value commands for one datum of the vertical bar chart. -/
def verticalBarCmds (maxValue graphHeight barWidth barSpacing padLeft padTop : ℚ)
    (barARGB : List ℤ) (i : ℕ) (item : CategoryDatum) : List DrawCmd :=
  let barHeight := (item.value / maxValue) * graphHeight
  let left := padLeft + barSpacing + (i : ℚ) * (barWidth + barSpacing)
  let top := padTop + graphHeight - barHeight
  let right := left + barWidth
  let bottom := padTop + graphHeight
  [DrawCmd.fillRect left top right bottom barARGB,
   DrawCmd.textLabel item.label (left + barWidth / 2) (bottom + 45),
   DrawCmd.textValue item.value (left + barWidth / 2) (top - 15)]

/-- Bar, label and value commands for one datum of the horizontal bar chart
(bar length scaled against `maxValue * 1.1` for 10% headroom). -/
def horizontalBarCmds (maxValue graphWidth barHeight barSpacing padLeft padTop : ℚ)
    (barARGB : List ℤ) (i : ℕ) (item : CategoryDatum) : List DrawCmd :=
  let barWidth := (item.value / (maxValue * (11 / 10))) * graphWidth
  let left := padLeft
  let top := padTop + barSpacing + (i : ℚ) * (barHeight + barSpacing)
  let right := left + barWidth
  let bottom := top + barHeight
  [DrawCmd.fillRect left top right bottom barARGB,
   DrawCmd.textLabel item.label (left - 20) (top + barHeight / 2 + 15),
   DrawCmd.textValue item.value (right + 20) (top + barHeight / 2 + 15)]

/-- `createBarChart`: `null` when `data` is missing or empty; otherwise
background, optional title, the two axis lines, and per-datum bar, label and
value commands in data order. -/
def createBarChart (cfg : BarChartConfig) : Option (List DrawCmd) :=
  match cfg.data with
  | none => none
  | some data =>
    if data.length = 0 then none
    else
      let w : ℚ := (cfg.width : ℚ)
      let h : ℚ := (cfg.height : ℚ)
      let padTop : ℚ := 150
      let padLeft : ℚ := 150
      let graphWidth := w - padLeft - 50
      let graphHeight := h - padTop - 150
      let maxValue := barChartMaxValue data
      let barARGB := hexToARGB cfg.barColor
      let axisARGB := hexToARGB cfg.axisColor
      let titleCmds :=
        if cfg.title = "" then []
        else [DrawCmd.textLabel cfg.title (w / 2) (padTop / 2 + 20)]
      let axisCmds :=
        match cfg.orientation with
        | Orientation.vertical =>
          [DrawCmd.strokeLine padLeft padTop padLeft (padTop + graphHeight) axisARGB,
           DrawCmd.strokeLine padLeft (padTop + graphHeight) (padLeft + graphWidth)
             (padTop + graphHeight) axisARGB]
        | Orientation.horizontal =>
          let xAxisY := padTop + graphHeight + h * (4 / 100)
          [DrawCmd.strokeLine padLeft padTop padLeft xAxisY axisARGB,
           DrawCmd.strokeLine padLeft xAxisY (padLeft + graphWidth) xAxisY axisARGB]
      let barCmds :=
        match cfg.orientation with
        | Orientation.vertical =>
          let barWidth := graphWidth / ((data.length : ℚ) * (3 / 2))
          data.enum.flatMap (fun ip =>
            verticalBarCmds maxValue graphHeight barWidth (barWidth * (1 / 2))
              padLeft padTop barARGB ip.1 ip.2)
        | Orientation.horizontal =>
          let barHeight := graphHeight / ((data.length : ℚ) * (3 / 2))
          data.enum.flatMap (fun ip =>
            horizontalBarCmds maxValue graphWidth barHeight (barHeight * (1 / 2))
              padLeft padTop barARGB ip.1 ip.2)
      some (DrawCmd.clearBg (hexToARGB cfg.backgroundColor) ::
        titleCmds ++ axisCmds ++ barCmds)

/-! ## `createScatterPlot` -/

/-- Options of `createScatterPlot` after merging with its defaults. -/
structure ScatterPlotConfig where
  data : Option (List Point) := none
  width : ℕ := 1000
  height : ℕ := 800
  padding : ℚ := 100
  title : String := "산점도 그래프"
  xLabel : String := "X축"
  yLabel : String := "Y축"
  pointSize : ℚ := 10
  fontSize : ℚ := 40
  backgroundColor : String := "#FFFFFF"
  axisColor : String := "#000000"
  textColor : String := "#333333"
  pointColor : String := "#FF6347"
  showConfidenceInterval : Bool := false
  regressionLineColor : String := "#0000FF"
  confidenceIntervalColor : String := "#4682B4"
  confidenceIntervalResolution : ℕ := 100

/-- The scatter-plot empty-state placeholder string (Korean for
"There is no data to display."). -/
def scatterNoDataText : String := "표시할 데이터가 없습니다."

/-- Margin of error of the scatter confidence band at abscissa `x`:
`1.96 * residualStdErr * sqrt(1/n + (x - meanX)² / Sxx)` (the hard-coded
95% normal critical value).  This defines the band boundaries whose polygon
the `ciBandFill` command abstracts. -/
noncomputable def scatterMarginOfError (reg : RegressionResult) (x : ℚ) : ℝ :=
  (49 / 25 : ℝ) * residualStdErr reg *
    Real.sqrt (1 / (reg.n : ℝ) + ((x : ℝ) - (reg.meanX : ℝ)) * ((x : ℝ) - (reg.meanX : ℝ)) / (reg.Sxx : ℝ))

/-- `createScatterPlot`: `null` only when `data` is missing.  The background
is painted before the emptiness check; empty data draws the placeholder text
and still succeeds.  With `showConfidenceInterval` and a non-`null`
regression the regression line is drawn, and the confidence-band polygon only
under `regression.n > 2 && regression.Sxx > 0`; the data points are drawn
last. -/
def createScatterPlot (cfg : ScatterPlotConfig) : Option (List DrawCmd) :=
  match cfg.data with
  | none => none
  | some data =>
    let w : ℚ := (cfg.width : ℚ)
    let h : ℚ := (cfg.height : ℚ)
    if data.length = 0 then
      some [DrawCmd.clearBg (hexToARGB cfg.backgroundColor),
        DrawCmd.textLabel scatterNoDataText (w / 2) (h / 2)]
    else
      let p := cfg.padding
      let minX := listMin (data.map (fun q => q.x))
      let maxX := listMax (data.map (fun q => q.x))
      let minY := listMin (data.map (fun q => q.y))
      let maxY := listMax (data.map (fun q => q.y))
      let drawableWidth := w - 2 * p
      let drawableHeight := h - 2 * p
      let xRange := if maxX - minX = 0 then 1 else maxX - minX
      let yRange := if maxY - minY = 0 then 1 else maxY - minY
      let toPixelX := fun (v : ℚ) => p + ((v - minX) / xRange) * drawableWidth
      let toPixelY := fun (v : ℚ) => (h - p) - ((v - minY) / yRange) * drawableHeight
      let base :=
        [DrawCmd.clearBg (hexToARGB cfg.backgroundColor),
         DrawCmd.strokeLine p (h - p) (w - p) (h - p) (hexToARGB cfg.axisColor),
         DrawCmd.strokeLine p (h - p) p p (hexToARGB cfg.axisColor),
         DrawCmd.textLabel cfg.title (w / 2) (p / 2),
         DrawCmd.textLabel cfg.xLabel (w / 2) (h - p / 4),
         DrawCmd.textLabel cfg.yLabel (p / (5 / 2)) (h / 2)]
      let ciCmds :=
        if cfg.showConfidenceInterval then
          match calculateLinearRegression data with
          | some reg =>
            let startY := reg.slope * minX + reg.intercept
            let endY := reg.slope * maxX + reg.intercept
            DrawCmd.strokeLine (toPixelX minX) (toPixelY startY) (toPixelX maxX)
              (toPixelY endY) (hexToARGB cfg.regressionLineColor) ::
            (if 2 < reg.n ∧ 0 < reg.Sxx then
              [DrawCmd.ciBandFill reg cfg.confidenceIntervalResolution]
            else [])
          | none => []
        else []
      let points := data.map (fun q =>
        DrawCmd.fillCircle (toPixelX q.x) (toPixelY q.y) cfg.pointSize
          (hexToARGB cfg.pointColor))
      some (base ++ ciCmds ++ points)

/-! ## `createNormalDistributionChart` -/

/-- Options of `createNormalDistributionChart` after merging with its
defaults. -/
structure NormalDistributionChartConfig where
  mean : ℚ := 0
  stdDev : ℚ := 1
  width : ℕ := 1024
  height : ℕ := 600
  orientation : Orientation := Orientation.vertical
  ciResolution : Option ℕ := none
  backgroundColor : String := "#FFFFFF"
  axisColor : String := "#969696"
  lineColor : String := "#007AFF"
  confidenceLevels : List ConfidenceLevel :=
    [⟨95 / 100, "#504287F5"⟩, ⟨68 / 100, "#7877BEFD"⟩]

/-- The fixed z-score table `Z_SCORES = { 0.68: 1.0, 0.95: 1.96, 0.99: 2.58 }`.
A level outside the table looks up `undefined` and the loop's `if (!z)
continue` skips it, embedded as `none` (no table value is `0`, the only other
falsy lookup result). -/
def Z_SCORES (level : ℚ) : Option ℚ :=
  if level = 68 / 100 then some 1
  else if level = 95 / 100 then some (196 / 100)
  else if level = 99 / 100 then some (258 / 100)
  else none

/-- Stable insertion of one entry into a list sorted by descending `level`
(the `sort((a, b) => b.level - a.level)` comparator). -/
def insertByLevelDesc (x : ConfidenceLevel) : List ConfidenceLevel → List ConfidenceLevel
  | [] => [x]
  | y :: ys => if y.level < x.level then x :: y :: ys else y :: insertByLevelDesc x ys

/-- `confidenceLevels.slice().sort((a, b) => b.level - a.level)`: the
configured levels sorted by descending `level`. -/
def sortByLevelDesc : List ConfidenceLevel → List ConfidenceLevel
  | [] => []
  | x :: xs => insertByLevelDesc x (sortByLevelDesc xs)

/-- One confidence-band command of the normal-distribution chart, for an
entry whose level resolved to z-score `z`.  The band spans
`mean ± z·stdDev` mapped to pixels over the plotted range
`mean ± 3.5·stdDev`; vertical orientation floors the left edge and ceils the
right one, horizontal starts from the `ciMaxX` side. -/
def normalBandCmd (cfg : NormalDistributionChartConfig) (ci : ConfidenceLevel)
    (z : ℚ) : DrawCmd :=
  let primaryAxisSize : ℚ :=
    match cfg.orientation with
    | Orientation.vertical => (cfg.width : ℚ)
    | Orientation.horizontal => (cfg.height : ℚ)
  let range := (7 / 2) * cfg.stdDev
  let minXData := cfg.mean - range
  let xDataRange := 2 * range
  let ciMinX := cfg.mean - z * cfg.stdDev
  let ciMaxX := cfg.mean + z * cfg.stdDev
  match cfg.orientation with
  | Orientation.vertical =>
    DrawCmd.bandFill ci.level z (hexToARGB ci.color)
      ⌊primaryAxisSize * (ciMinX - minXData) / xDataRange⌋
      ⌈primaryAxisSize * (ciMaxX - minXData) / xDataRange⌉
  | Orientation.horizontal =>
    DrawCmd.bandFill ci.level z (hexToARGB ci.color)
      ⌊primaryAxisSize * (ciMaxX - minXData) / xDataRange⌋
      ⌈primaryAxisSize * (ciMinX - minXData) / xDataRange⌉

/-- The two axis lines of the normal-distribution chart, by orientation. -/
def normalAxes (cfg : NormalDistributionChartConfig) : List DrawCmd :=
  let w : ℚ := (cfg.width : ℚ)
  let h : ℚ := (cfg.height : ℚ)
  match cfg.orientation with
  | Orientation.vertical =>
    [DrawCmd.strokeLine 0 (h - 1) w (h - 1) (hexToARGB cfg.axisColor),
     DrawCmd.strokeLine (w / 2) 0 (w / 2) h (hexToARGB cfg.axisColor)]
  | Orientation.horizontal =>
    [DrawCmd.strokeLine 1 0 1 h (hexToARGB cfg.axisColor),
     DrawCmd.strokeLine 0 (h / 2) w (h / 2) (hexToARGB cfg.axisColor)]

/-- `createNormalDistributionChart`: background, then one band polygon per
sorted, table-supported confidence level (widest first), then the axes, then
the main curve.  The invocation always succeeds. -/
def createNormalDistributionChart (cfg : NormalDistributionChartConfig) :
    Option (List DrawCmd) :=
  let bands := (sortByLevelDesc cfg.confidenceLevels).filterMap (fun ci =>
    (Z_SCORES ci.level).map (fun z => normalBandCmd cfg ci z))
  some (DrawCmd.clearBg (hexToARGB cfg.backgroundColor) ::
    bands ++ normalAxes cfg ++ [DrawCmd.curveStroke (hexToARGB cfg.lineColor)])

/-- Level of a confidence-band command, if the command is one. -/
def bandLevelOf : DrawCmd → Option ℚ
  | DrawCmd.bandFill level _ _ _ _ => some level
  | _ => none

/-- The levels of the confidence-band commands of a command list, in drawing
order. -/
def bandLevels (cmds : List DrawCmd) : List ℚ :=
  cmds.filterMap bandLevelOf

/-! ## Helper lemmas on the regression -/

/-- Expansion of a sum of squared deviations from a fixed center. -/
lemma sum_sq_dev (l : List ℚ) (m : ℚ) :
    (l.map (fun x => (x - m) * (x - m))).sum
      = (l.map (fun x => x * x)).sum - 2 * m * l.sum + (l.length : ℚ) * (m * m) := by
  induction l with
  | nil => simp
  | cons x xs ih =>
    simp only [List.map_cons, List.sum_cons, List.length_cons, ih]
    push_cast
    ring

/-- A sum of squares of rationals is nonnegative. -/
lemma sum_sq_nonneg (l : List ℚ) : 0 ≤ (l.map (fun x => x * x)).sum := by
  refine List.sum_nonneg ?_
  intro y hy
  obtain ⟨x, _, rfl⟩ := List.mem_map.mp hy
  exact mul_self_nonneg x

/-- A vanishing sum of squares of rationals has every term zero. -/
lemma sum_sq_eq_zero (l : List ℚ) (h : (l.map (fun x => x * x)).sum = 0) :
    ∀ x ∈ l, x = 0 := by
  induction l with
  | nil => simp
  | cons x xs ih =>
    simp only [List.map_cons, List.sum_cons] at h
    have hx : 0 ≤ x * x := mul_self_nonneg x
    have hxs : 0 ≤ (xs.map (fun x => x * x)).sum := sum_sq_nonneg xs
    have hx0 : x * x = 0 := by linarith
    intro y hy
    rcases List.mem_cons.mp hy with rfl | hmem
    · exact mul_self_eq_zero.mp hx0
    · exact ih (by linarith) y hmem

/-- Sums of a rational list whose elements all equal `c`. -/
lemma sums_of_const (xs : List ℚ) (c : ℚ) (h : ∀ x ∈ xs, x = c) :
    xs.sum = (xs.length : ℚ) * c
      ∧ (xs.map (fun x => x * x)).sum = (xs.length : ℚ) * (c * c) := by
  induction xs with
  | nil => simp
  | cons x rest ih =>
    have hx : x = c := h x (List.mem_cons_self x rest)
    have ihs := ih (fun y hy => h y (List.mem_cons_of_mem x hy))
    simp only [List.map_cons, List.sum_cons, List.length_cons, hx, ihs.1, ihs.2]
    push_cast
    constructor <;> ring

/-- For a nonempty list, `n·Σx² - (Σx)²` vanishes exactly when all elements
coincide. -/
lemma nQ_sub_SS_eq_zero_iff (xs : List ℚ) (hne : xs ≠ []) :
    (xs.length : ℚ) * (xs.map (fun x => x * x)).sum - xs.sum * xs.sum = 0
      ↔ ∀ x ∈ xs, ∀ y ∈ xs, x = y := by
  have hn : (0 : ℚ) < (xs.length : ℚ) := by
    have : 0 < xs.length := List.length_pos.mpr hne
    exact_mod_cast this
  constructor
  · intro h0
    have hzero : (xs.map (fun x =>
        (x - xs.sum / (xs.length : ℚ)) * (x - xs.sum / (xs.length : ℚ)))).sum = 0 := by
      rw [sum_sq_dev xs (xs.sum / (xs.length : ℚ))]
      have hrw : (xs.map (fun x => x * x)).sum
          - 2 * (xs.sum / (xs.length : ℚ)) * xs.sum
          + (xs.length : ℚ) * (xs.sum / (xs.length : ℚ) * (xs.sum / (xs.length : ℚ)))
          = ((xs.length : ℚ) * (xs.map (fun x => x * x)).sum - xs.sum * xs.sum)
            / (xs.length : ℚ) := by
        field_simp
        ring
      rw [hrw, h0, zero_div]
    have hall := sum_sq_eq_zero (xs.map (fun x => x - xs.sum / (xs.length : ℚ)))
      (by rw [List.map_map]; exact hzero)
    intro x hx y hy
    have hx0 := hall _ (List.mem_map_of_mem _ hx)
    have hy0 := hall _ (List.mem_map_of_mem _ hy)
    have hx' : x = xs.sum / (xs.length : ℚ) := by linarith
    have hy' : y = xs.sum / (xs.length : ℚ) := by linarith
    rw [hx', hy']
  · intro hall
    rcases xs with _ | ⟨x0, rest⟩
    · simp at hne
    · have hc : ∀ x ∈ x0 :: rest, x = x0 :=
        fun x hx => hall x hx x0 (List.mem_cons_self x0 rest)
      obtain ⟨hs, hs2⟩ := sums_of_const (x0 :: rest) x0 hc
      rw [hs, hs2]
      ring

/-- The least-squares denominator vanishes exactly when all x-coordinates
coincide (for nonempty data). -/
lemma regressionDenominator_eq_zero_iff (data : List Point) (h2 : 2 ≤ data.length) :
    regressionDenominator data = 0 ↔ ∀ p ∈ data, ∀ q ∈ data, p.x = q.x := by
  have hne : data.map (fun p => p.x) ≠ [] := by
    cases data
    · simp at h2
    · simp
  have hmm : (data.map (fun p => p.x * p.x)).sum
      = ((data.map (fun p => p.x)).map (fun x => x * x)).sum := by
    rw [List.map_map]
    rfl
  have hlen : (((data.map (fun p => p.x)).length : ℚ)) = (data.length : ℚ) := by simp
  have hiff := nQ_sub_SS_eq_zero_iff (data.map (fun p => p.x)) hne
  constructor
  · intro h0 p hp q hq
    refine hiff.mp ?_ p.x (List.mem_map_of_mem _ hp) q.x (List.mem_map_of_mem _ hq)
    rw [hlen, ← hmm]
    exact h0
  · intro hall
    have h0 := hiff.mpr (by
      intro x hx y hy
      obtain ⟨p, hp, rfl⟩ := List.mem_map.mp hx
      obtain ⟨q, hq, rfl⟩ := List.mem_map.mp hy
      exact hall p hp q hq)
    rw [hlen, ← hmm] at h0
    exact h0

/-- Inversion of a successful `calculateLinearRegression`: the guards that
were passed and the value of every field of the result. -/
lemma calculateLinearRegression_some (data : List Point) (r : RegressionResult)
    (h : calculateLinearRegression data = some r) :
    2 ≤ data.length ∧ regressionDenominator data ≠ 0 ∧
    r.n = data.length ∧
    r.slope = ((data.length : ℚ) * (data.map (fun p => p.x * p.y)).sum
      - (data.map (fun p => p.x)).sum * (data.map (fun p => p.y)).sum)
      / regressionDenominator data ∧
    r.intercept = (data.map (fun p => p.y)).sum / (data.length : ℚ)
      - r.slope * ((data.map (fun p => p.x)).sum / (data.length : ℚ)) ∧
    r.meanX = (data.map (fun p => p.x)).sum / (data.length : ℚ) ∧
    ((data.length < 3 → r.Sxx = 0 ∧ r.ssr = 0) ∧
     (3 ≤ data.length →
       r.Sxx = (data.map (fun p =>
         (p.x - r.meanX) * (p.x - r.meanX))).sum ∧
       r.ssr = (data.map (fun p =>
         (p.y - (r.slope * p.x + r.intercept)) *
           (p.y - (r.slope * p.x + r.intercept)))).sum)) := by
  simp only [calculateLinearRegression, regressionDenominator] at h ⊢
  split at h
  · exact absurd h (by simp)
  · rename_i hlen
    split at h
    · exact absurd h (by simp)
    · rename_i hden
      split at h
      · rename_i hlt3
        obtain rfl := (Option.some.injEq _ _).mp h
        refine ⟨by omega, hden, rfl, rfl, rfl, rfl, fun _ => ⟨rfl, rfl⟩, fun h3 => ?_⟩
        omega
      · rename_i hge3
        obtain rfl := (Option.some.injEq _ _).mp h
        exact ⟨by omega, hden, rfl, rfl, rfl, rfl, fun hlt => by omega,
          fun _ => ⟨rfl, rfl⟩⟩

/-- Characterization of a failing `calculateLinearRegression`. -/
lemma calculateLinearRegression_eq_none_iff (data : List Point) :
    calculateLinearRegression data = none ↔
      data.length < 2 ∨ regressionDenominator data = 0 := by
  simp only [calculateLinearRegression, regressionDenominator]
  split
  · rename_i hlen
    simp [hlen]
  · rename_i hlen
    split
    · rename_i hden
      simp [hden]
    · rename_i hden
      split <;> simp [hlen, hden]

/-! ## Claims -/

/-- C3: `calculateLinearRegression` returns `none` exactly when `n < 2` or
the denominator `n·Σx² - (Σx)²` is exactly zero (equivalently, for `n ≥ 2`,
when all x are identical); otherwise it returns
`slope = (nΣxy - ΣxΣy) / (nΣx² - (Σx)²)` and
`intercept = ȳ - slope·x̄`.  On `{(1,1),(2,2),(3,3)}` it returns `slope = 1`
and `intercept = 0`, and on `{(5,1),(5,2)}` it returns `none`. -/
theorem linearRegression_spec (data : List Point) :
    (calculateLinearRegression data = none ↔
      data.length < 2 ∨ regressionDenominator data = 0)
    ∧ (2 ≤ data.length →
        (regressionDenominator data = 0 ↔ ∀ p ∈ data, ∀ q ∈ data, p.x = q.x))
    ∧ (∀ r : RegressionResult, calculateLinearRegression data = some r →
        r.slope = ((data.length : ℚ) * (data.map (fun p => p.x * p.y)).sum
          - (data.map (fun p => p.x)).sum * (data.map (fun p => p.y)).sum)
          / regressionDenominator data
        ∧ r.intercept = (data.map (fun p => p.y)).sum / (data.length : ℚ)
          - r.slope * ((data.map (fun p => p.x)).sum / (data.length : ℚ)))
    ∧ (calculateLinearRegression [⟨1, 1⟩, ⟨2, 2⟩, ⟨3, 3⟩]).map
        (fun r => (r.slope, r.intercept)) = some (1, 0)
    ∧ calculateLinearRegression [⟨5, 1⟩, ⟨5, 2⟩] = none := by
  refine ⟨calculateLinearRegression_eq_none_iff data,
    regressionDenominator_eq_zero_iff data, ?_, ?_, ?_⟩
  · intro r hr
    obtain ⟨-, -, -, hslope, hintercept, -, -⟩ :=
      calculateLinearRegression_some data r hr
    exact ⟨hslope, hintercept⟩
  · norm_num [calculateLinearRegression]
  · norm_num [calculateLinearRegression]

/-- Witness for C3: the slope/intercept clause applied to the concrete data
set `{(1,1),(2,2),(3,3)}` with its hypotheses discharged by computation. -/
theorem linearRegression_spec_witness :
    (⟨1, 0, 3, 2, 2, 0⟩ : RegressionResult).slope
        = ((3 : ℚ) * (1 * 1 + 2 * 2 + 3 * 3) - (1 + 2 + 3) * (1 + 2 + 3))
          / regressionDenominator [⟨1, 1⟩, ⟨2, 2⟩, ⟨3, 3⟩] := by
  have h := ((linearRegression_spec [⟨1, 1⟩, ⟨2, 2⟩, ⟨3, 3⟩]).2.2.1
    ⟨1, 0, 3, 2, 2, 0⟩ (by norm_num [calculateLinearRegression])).1
  norm_num at h ⊢
  exact h

/-! ## Helper lemmas on the color codec -/

/-- A hex digit value is below 16. -/
lemma hexDigitVal_lt (c : Char) (d : ℕ) (h : hexDigitVal c = some d) : d < 16 := by
  simp only [hexDigitVal] at h
  split at h
  · rename_i hc
    obtain rfl := (Option.some.injEq _ _).mp h
    omega
  · split at h
    · rename_i hc
      obtain rfl := (Option.some.injEq _ _).mp h
      omega
    · split at h
      · rename_i hc
        obtain rfl := (Option.some.injEq _ _).mp h
        omega
      · exact absurd h (by simp)

/-- Size bound of the hex parser: a list of `k` characters contributes a
factor of at most `16^k`. -/
lemma parseHexNat_lt (ds : List Char) : ∀ acc : ℕ,
    parseHexNat ds acc < 16 ^ ds.length * (acc + 1) := by
  induction ds with
  | nil =>
    intro acc
    simp [parseHexNat]
  | cons c cs ih =>
    intro acc
    simp only [parseHexNat, List.length_cons]
    have hP : 0 < 16 ^ cs.length := by positivity
    rw [pow_succ]
    cases hc : hexDigitVal c with
    | none =>
      nlinarith
    | some d =>
      have hd : d < 16 := hexDigitVal_lt c d hc
      have hih := ih (16 * acc + d)
      nlinarith

/-- Byte extraction through the JavaScript int32 round trip: for `v < 2^32`
and a shift of at most 24, `(ToInt32(v) >> s) & 0xFF` is the plain base-2
byte `v / 2^s % 256`. -/
lemma jsShrByte_toInt32 (v : ℕ) (hv : v < 2 ^ 32) (s : ℕ) (hs : s ≤ 24) :
    jsShrByte (jsToInt32 v) s = ((v / 2 ^ s % 256 : ℕ) : ℤ) := by
  have hpow : (0 : ℤ) < 2 ^ s := by positivity
  simp only [jsToInt32, jsShrByte, Nat.mod_eq_of_lt hv]
  rw [Int.fdiv_eq_ediv _ (le_of_lt hpow)]
  split
  · push_cast
    norm_cast
  · have hsplit : ((v : ℤ)) - 2 ^ 32 = (v : ℤ) + (-(2 ^ (32 - s))) * 2 ^ s := by
      have : (2 : ℤ) ^ 32 = 2 ^ (32 - s) * 2 ^ s := by
        rw [← pow_add]
        congr 1
        omega
      rw [this]
      ring
    rw [hsplit, Int.add_mul_ediv_right _ _ (ne_of_gt hpow)]
    have hdvd : (2 : ℤ) ^ (32 - s) = 256 * 2 ^ (24 - s) := by
      have h256 : (256 : ℤ) = 2 ^ 8 := by norm_num
      rw [h256, ← pow_add]
      congr 1
      omega
    have hmod : ((v : ℤ) / 2 ^ s + -(2 ^ (32 - s))) % 256 = ((v : ℤ) / 2 ^ s) % 256 := by
      rw [hdvd]
      omega
    rw [hmod]
    push_cast
    norm_cast

/-- Low byte through the JavaScript int32 round trip. -/
lemma jsToInt32_emod (v : ℕ) (hv : v < 2 ^ 32) :
    jsToInt32 v % 256 = ((v % 256 : ℕ) : ℤ) := by
  have h := jsShrByte_toInt32 v hv 0 (by omega)
  simpa [jsShrByte, Int.fdiv_one] using h

/-- Length of a string whose character list is an explicit cons. -/
lemma length_of_data_cons (s : String) (c : Char) (ds : List Char)
    (h : s.data = c :: ds) : s.length = ds.length + 1 := by
  have hl : s.length = s.data.length := rfl
  rw [hl, h]
  simp

/-- C9: `hexToARGB` is total on well-formed hex color strings and dispatches
solely on string length: a 9-character string decodes as `#AARRGGBB`; any
other length decodes as `#RRGGBB` with alpha forced to 255; every produced
channel lies in `[0, 256)`; `"#FF0000"` yields `[255,255,0,0]` and
`"#80112233"` yields `[128,17,34,51]`. -/
theorem hexToARGB_spec :
    (∀ (s : String) (ds : List Char), s.data = '#' :: ds → ds.length = 8 →
      hexToARGB s =
        [((parseHexNat ds 0 / 2 ^ 24 % 256 : ℕ) : ℤ),
         ((parseHexNat ds 0 / 2 ^ 16 % 256 : ℕ) : ℤ),
         ((parseHexNat ds 0 / 2 ^ 8 % 256 : ℕ) : ℤ),
         ((parseHexNat ds 0 % 256 : ℕ) : ℤ)])
    ∧ (∀ (s : String) (ds : List Char), s.data = '#' :: ds → ds.length = 6 →
      hexToARGB s =
        [255,
         ((parseHexNat ds 0 / 2 ^ 16 % 256 : ℕ) : ℤ),
         ((parseHexNat ds 0 / 2 ^ 8 % 256 : ℕ) : ℤ),
         ((parseHexNat ds 0 % 256 : ℕ) : ℤ)])
    ∧ (∀ s : String, s.length ≠ 9 → (hexToARGB s).head? = some 255)
    ∧ (∀ s : String, (hexToARGB s).length = 4 ∧ ∀ c ∈ hexToARGB s, 0 ≤ c ∧ c < 256)
    ∧ hexToARGB "#FF0000" = [255, 255, 0, 0]
    ∧ hexToARGB "#80112233" = [128, 17, 34, 51] := by
  have hbyte_bounds : ∀ (w : ℤ) (s : ℕ), 0 ≤ jsShrByte w s ∧ jsShrByte w s < 256 := by
    intro w s
    exact ⟨Int.emod_nonneg _ (by norm_num), Int.emod_lt_of_pos _ (by norm_num)⟩
  refine ⟨?_, ?_, ?_, ?_, by decide, by decide⟩
  · intro s ds hdata hlen
    have hslen : s.length = 9 := by rw [length_of_data_cons s _ _ hdata, hlen]
    have hbound : parseHexNat ds 0 < 2 ^ 32 := by
      have h := parseHexNat_lt ds 0
      rw [hlen] at h
      norm_num at h
      omega
    have hstrip : stripHash s.data = ds := by rw [hdata]; simp [stripHash]
    simp only [hexToARGB, hstrip, hslen, if_pos]
    rw [jsShrByte_toInt32 _ hbound 24 (by omega),
      jsShrByte_toInt32 _ hbound 16 (by omega),
      jsShrByte_toInt32 _ hbound 8 (by omega),
      jsToInt32_emod _ hbound]
  · intro s ds hdata hlen
    have hslen : s.length = 7 := by rw [length_of_data_cons s _ _ hdata, hlen]
    have hbound : parseHexNat ds 0 < 2 ^ 32 := by
      have h := parseHexNat_lt ds 0
      rw [hlen] at h
      norm_num at h
      omega
    have hstrip : stripHash s.data = ds := by rw [hdata]; simp [stripHash]
    simp only [hexToARGB, hstrip]
    rw [hslen, if_neg (by norm_num)]
    rw [jsShrByte_toInt32 _ hbound 16 (by omega),
      jsShrByte_toInt32 _ hbound 8 (by omega),
      jsToInt32_emod _ hbound]
  · intro s hne
    simp only [hexToARGB, hne, if_neg, if_false]
    rfl
  · intro s
    simp only [hexToARGB]
    split
    · refine ⟨rfl, ?_⟩
      intro c hc
      simp only [List.mem_cons, List.not_mem_nil, or_false] at hc
      rcases hc with rfl | rfl | rfl | rfl
      · exact hbyte_bounds _ _
      · exact hbyte_bounds _ _
      · exact hbyte_bounds _ _
      · exact ⟨Int.emod_nonneg _ (by norm_num), Int.emod_lt_of_pos _ (by norm_num)⟩
    · refine ⟨rfl, ?_⟩
      intro c hc
      simp only [List.mem_cons, List.not_mem_nil, or_false] at hc
      rcases hc with rfl | rfl | rfl | rfl
      · norm_num
      · exact hbyte_bounds _ _
      · exact hbyte_bounds _ _
      · exact ⟨Int.emod_nonneg _ (by norm_num), Int.emod_lt_of_pos _ (by norm_num)⟩

/-- Witness for C9: the `#AARRGGBB` clause applied to the concrete string
`"#80112233"`, hypotheses discharged by computation. -/
theorem hexToARGB_spec_witness :
    hexToARGB "#80112233" =
      [((parseHexNat ['8', '0', '1', '1', '2', '2', '3', '3'] 0 / 2 ^ 24 % 256 : ℕ) : ℤ),
       ((parseHexNat ['8', '0', '1', '1', '2', '2', '3', '3'] 0 / 2 ^ 16 % 256 : ℕ) : ℤ),
       ((parseHexNat ['8', '0', '1', '1', '2', '2', '3', '3'] 0 / 2 ^ 8 % 256 : ℕ) : ℤ),
       ((parseHexNat ['8', '0', '1', '1', '2', '2', '3', '3'] 0 % 256 : ℕ) : ℤ)] :=
  hexToARGB_spec.1 "#80112233" ['8', '0', '1', '1', '2', '2', '3', '3']
    (by decide) (by decide)

/-- C8: a pie chart whose data values sum to exactly 0 never reaches the
`value/total` divisions: it renders only the background and the literal
empty-state placeholder text, emits no slice (`drawArc`) command, and the
invocation still succeeds. -/
theorem pieChart_zero_total (cfg : PieChartConfig) (data : List CategoryDatum)
    (hdata : cfg.data = some data)
    (hzero : (data.map (fun d => d.value)).sum = 0) :
    createPieChart cfg =
      some [DrawCmd.clearBg (hexToARGB cfg.backgroundColor),
        DrawCmd.textLabel pieNoDataText ((cfg.width : ℚ) / 2) ((cfg.height : ℚ) / 2)]
    ∧ ∀ cmds, createPieChart cfg = some cmds →
        ∀ c ∈ cmds, ∀ a sw argb, c ≠ DrawCmd.fillArc a sw argb := by
  have hmain : createPieChart cfg =
      some [DrawCmd.clearBg (hexToARGB cfg.backgroundColor),
        DrawCmd.textLabel pieNoDataText ((cfg.width : ℚ) / 2) ((cfg.height : ℚ) / 2)] := by
    simp only [createPieChart, hdata]
    rw [if_pos hzero]
  refine ⟨hmain, ?_⟩
  intro cmds hcmds c hc a sw argb
  rw [hmain] at hcmds
  obtain rfl := (Option.some.injEq _ _).mp hcmds
  rcases List.mem_cons.mp hc with rfl | hc'
  · simp
  · rcases List.mem_cons.mp hc' with rfl | hc''
    · simp
    · simp at hc''

/-- Witness for C8: the zero-total pie data `[{A,0},{B,0}]` from the claim,
hypotheses discharged by computation. -/
theorem pieChart_zero_total_witness :
    createPieChart { data := some [⟨"A", 0⟩, ⟨"B", 0⟩] } =
      some [DrawCmd.clearBg (hexToARGB "#FFFFFF"),
        DrawCmd.textLabel pieNoDataText ((1200 : ℚ) / 2) ((800 : ℚ) / 2)] :=
  (pieChart_zero_total { data := some [⟨"A", 0⟩, ⟨"B", 0⟩] } [⟨"A", 0⟩, ⟨"B", 0⟩]
    rfl (by norm_num)).1

/-! ## Helper lemmas on list maxima -/

/-- Folding `max` over elements bounded by the accumulator returns the
accumulator. -/
lemma foldl_max_of_le (xs : List ℚ) : ∀ a : ℚ, (∀ v ∈ xs, v ≤ a) →
    xs.foldl max a = a := by
  induction xs with
  | nil => intro a _; rfl
  | cons x rest ih =>
    intro a h
    have hx : x ≤ a := h x (List.mem_cons_self x rest)
    simp only [List.foldl_cons, max_eq_left hx]
    exact ih a (fun v hv => h v (List.mem_cons_of_mem x hv))

/-- The maximum of an all-zero value list is `0`. -/
lemma listMax_all_zero (xs : List ℚ) (h : ∀ v ∈ xs, v = 0) : listMax xs = 0 := by
  cases xs with
  | nil => rfl
  | cons x rest =>
    have hx : x = 0 := h x (List.mem_cons_self x rest)
    simp only [listMax, hx]
    exact foldl_max_of_le rest 0
      (fun v hv => le_of_eq (h v (List.mem_cons_of_mem x hv)))

/-- Membership of the label command among one vertical bar's commands. -/
lemma verticalBarCmds_label (mv gh bw bs pl pt : ℚ) (argb : List ℤ) (i : ℕ)
    (item : CategoryDatum) :
    DrawCmd.textLabel item.label (pl + bs + (i : ℚ) * (bw + bs) + bw / 2) (pt + gh + 45)
      ∈ verticalBarCmds mv gh bw bs pl pt argb i item := by
  simp [verticalBarCmds]

/-- Membership of the value command among one vertical bar's commands. -/
lemma verticalBarCmds_value (mv gh bw bs pl pt : ℚ) (argb : List ℤ) (i : ℕ)
    (item : CategoryDatum) :
    DrawCmd.textValue item.value (pl + bs + (i : ℚ) * (bw + bs) + bw / 2)
        (pt + gh - item.value / mv * gh - 15)
      ∈ verticalBarCmds mv gh bw bs pl pt argb i item := by
  simp [verticalBarCmds]

/-- Membership of the label command among one horizontal bar's commands. -/
lemma horizontalBarCmds_label (mv gw bh bs pl pt : ℚ) (argb : List ℤ) (i : ℕ)
    (item : CategoryDatum) :
    DrawCmd.textLabel item.label (pl - 20)
        (pt + bs + (i : ℚ) * (bh + bs) + bh / 2 + 15)
      ∈ horizontalBarCmds mv gw bh bs pl pt argb i item := by
  simp [horizontalBarCmds]

/-- Membership of the value command among one horizontal bar's commands. -/
lemma horizontalBarCmds_value (mv gw bh bs pl pt : ℚ) (argb : List ℤ) (i : ℕ)
    (item : CategoryDatum) :
    DrawCmd.textValue item.value (pl + item.value / (mv * (11 / 10)) * gw + 20)
        (pt + bs + (i : ℚ) * (bh + bs) + bh / 2 + 15)
      ∈ horizontalBarCmds mv gw bh bs pl pt argb i item := by
  simp [horizontalBarCmds]

/-- C10: a bar chart over nonempty all-zero data falls back to a scaling
maximum of `1`, so every bar rectangle degenerates (zero height vertically,
zero length horizontally), every label and value is still drawn, and the
invocation succeeds. -/
theorem barChart_allZero (cfg : BarChartConfig) (data : List CategoryDatum)
    (hdata : cfg.data = some data) (hne : data ≠ [])
    (hzero : ∀ d ∈ data, d.value = 0) :
    barChartMaxValue data = 1 ∧
    ∃ cmds, createBarChart cfg = some cmds
      ∧ (cfg.orientation = Orientation.vertical →
          ∀ l t r b argb, DrawCmd.fillRect l t r b argb ∈ cmds → t = b)
      ∧ (cfg.orientation = Orientation.horizontal →
          ∀ l t r b argb, DrawCmd.fillRect l t r b argb ∈ cmds → r = l)
      ∧ (∀ d ∈ data, (∃ x y, DrawCmd.textLabel d.label x y ∈ cmds)
          ∧ (∃ x y, DrawCmd.textValue d.value x y ∈ cmds)) := by
  have hmax : barChartMaxValue data = 1 := by
    simp only [barChartMaxValue]
    rw [listMax_all_zero _ (by
      intro v hv
      obtain ⟨d, hd, rfl⟩ := List.mem_map.mp hv
      exact hzero d hd)]
    simp
  have hsnd : ∀ p : ℕ × CategoryDatum, p ∈ data.enum → p.2.value = 0 := by
    intro p hp
    have : p.2 ∈ data := by
      rw [← List.enum_map_snd data]
      exact List.mem_map_of_mem _ hp
    exact hzero p.2 this
  have hmem_of : ∀ d ∈ data, ∃ i : ℕ, (i, d) ∈ data.enum := by
    intro d hd
    rw [← List.enum_map_snd data] at hd
    obtain ⟨p, hp, hpd⟩ := List.mem_map.mp hd
    exact ⟨p.1, by rwa [show (p.1, d) = p from Prod.ext rfl hpd.symm]⟩
  refine ⟨hmax, ?_⟩
  simp only [createBarChart, hdata]
  rw [if_neg (by simp [List.length_eq_zero, hne])]
  refine ⟨_, rfl, ?_, ?_, ?_⟩
  · -- vertical: every rectangle has top = bottom
    intro horient l t r b argb hmem
    rw [horient] at hmem
    simp only [hmax] at hmem
    rcases List.mem_cons.mp hmem with h | h
    · simp at h
    rcases List.mem_append.mp h with h | h
    · rcases List.mem_append.mp h with h | h
      · split at h <;> simp_all
      · simp at h
    · obtain ⟨p, hp, hin⟩ := List.mem_flatMap.mp h
      have hv := hsnd p hp
      simp only [verticalBarCmds, hv, List.mem_cons] at hin
      rcases hin with h' | h' | h' | h'
      · obtain ⟨-, ht, -, hb, -⟩ := DrawCmd.fillRect.inj h'.symm
        rw [← ht, ← hb]
        norm_num
      · simp at h'
      · simp at h'
      · simp at h'
  · -- horizontal: every rectangle has right = left
    intro horient l t r b argb hmem
    rw [horient] at hmem
    simp only [hmax] at hmem
    rcases List.mem_cons.mp hmem with h | h
    · simp at h
    rcases List.mem_append.mp h with h | h
    · rcases List.mem_append.mp h with h | h
      · split at h <;> simp_all
      · simp at h
    · obtain ⟨p, hp, hin⟩ := List.mem_flatMap.mp h
      have hv := hsnd p hp
      simp only [horizontalBarCmds, hv, List.mem_cons] at hin
      rcases hin with h' | h' | h' | h'
      · obtain ⟨hl, -, hr, -, -⟩ := DrawCmd.fillRect.inj h'.symm
        rw [← hl, ← hr]
        norm_num
      · simp at h'
      · simp at h'
      · simp at h'
  · -- each label and value is drawn
    intro d hd
    obtain ⟨i, hi⟩ := hmem_of d hd
    cases horient : cfg.orientation with
    | vertical =>
      simp only [horient]
      constructor
      · exact ⟨_, _, List.mem_cons_of_mem _ (List.mem_append_right _
          (List.mem_flatMap.mpr ⟨(i, d), hi,
            verticalBarCmds_label _ _ _ _ _ _ _ _ _⟩))⟩
      · exact ⟨_, _, List.mem_cons_of_mem _ (List.mem_append_right _
          (List.mem_flatMap.mpr ⟨(i, d), hi,
            verticalBarCmds_value _ _ _ _ _ _ _ _ _⟩))⟩
    | horizontal =>
      simp only [horient]
      constructor
      · exact ⟨_, _, List.mem_cons_of_mem _ (List.mem_append_right _
          (List.mem_flatMap.mpr ⟨(i, d), hi,
            horizontalBarCmds_label _ _ _ _ _ _ _ _ _⟩))⟩
      · exact ⟨_, _, List.mem_cons_of_mem _ (List.mem_append_right _
          (List.mem_flatMap.mpr ⟨(i, d), hi,
            horizontalBarCmds_value _ _ _ _ _ _ _ _ _⟩))⟩

/-- Witness for C10: the all-zero two-bar data set, hypotheses discharged by
computation; the fallback maximum is `1`. -/
theorem barChart_allZero_witness :
    barChartMaxValue [⟨"A", 0⟩, ⟨"B", 0⟩] = 1 :=
  (barChart_allZero { data := some [⟨"A", 0⟩, ⟨"B", 0⟩] } [⟨"A", 0⟩, ⟨"B", 0⟩]
    rfl (by simp) (by simp)).1

/-! ## Helper lemmas on the normal-distribution chart -/

/-- The command list of a normal-distribution invocation, spelled out. -/
lemma createNormalDistributionChart_eq (cfg : NormalDistributionChartConfig) :
    createNormalDistributionChart cfg =
      some (DrawCmd.clearBg (hexToARGB cfg.backgroundColor) ::
        ((sortByLevelDesc cfg.confidenceLevels).filterMap (fun ci =>
          (Z_SCORES ci.level).map (fun z => normalBandCmd cfg ci z))
        ++ normalAxes cfg
        ++ [DrawCmd.curveStroke (hexToARGB cfg.lineColor)])) := rfl

/-- A generated band command carries its entry's level. -/
lemma bandLevelOf_normalBandCmd (cfg : NormalDistributionChartConfig)
    (ci : ConfidenceLevel) (z : ℚ) :
    bandLevelOf (normalBandCmd cfg ci z) = some ci.level := by
  cases h : cfg.orientation <;> simp [normalBandCmd, h, bandLevelOf]

/-- Band levels of the band block: the table-supported levels, in order. -/
lemma bandLevels_filterMap (cfg : NormalDistributionChartConfig)
    (l : List ConfidenceLevel) :
    bandLevels (l.filterMap (fun ci =>
      (Z_SCORES ci.level).map (fun z => normalBandCmd cfg ci z)))
    = (l.filter (fun ci => (Z_SCORES ci.level).isSome)).map (fun ci => ci.level) := by
  induction l with
  | nil => rfl
  | cons ci rest ih =>
    cases hz : Z_SCORES ci.level with
    | none =>
      simp only [bandLevels, List.filterMap_cons, hz, Option.map_none', List.filter_cons,
        Option.isSome_none, Bool.false_eq_true, if_false, cond_false]
      exact ih
    | some z =>
      simp only [bandLevels, List.filterMap_cons, hz, Option.map_some', List.filter_cons,
        Option.isSome_some, cond_true, List.map_cons, bandLevelOf_normalBandCmd]
      exact congrArg (ci.level :: ·) ih

/-- The axis lines contribute no band levels. -/
lemma bandLevels_normalAxes (cfg : NormalDistributionChartConfig) :
    bandLevels (normalAxes cfg) = [] := by
  cases h : cfg.orientation <;> simp [normalAxes, h, bandLevels, bandLevelOf]

/-- Band levels of a whole normal-distribution invocation: the sorted,
table-supported configured levels. -/
lemma normalChart_bandLevels (cfg : NormalDistributionChartConfig)
    (cmds : List DrawCmd) (h : createNormalDistributionChart cfg = some cmds) :
    bandLevels cmds = ((sortByLevelDesc cfg.confidenceLevels).filter
      (fun ci => (Z_SCORES ci.level).isSome)).map (fun ci => ci.level) := by
  rw [createNormalDistributionChart_eq cfg] at h
  obtain rfl := (Option.some.injEq _ _).mp h
  have h2 := bandLevels_normalAxes cfg
  have hfm := bandLevels_filterMap cfg (sortByLevelDesc cfg.confidenceLevels)
  simp only [bandLevels] at h2 hfm ⊢
  simp [List.filterMap_cons, List.filterMap_append, h2, hfm, bandLevelOf]

/-- Membership in a descending insertion. -/
lemma mem_insertByLevelDesc (x : ConfidenceLevel) (l : List ConfidenceLevel)
    (z : ConfidenceLevel) :
    z ∈ insertByLevelDesc x l ↔ z = x ∨ z ∈ l := by
  induction l with
  | nil => simp [insertByLevelDesc]
  | cons y ys ih =>
    simp only [insertByLevelDesc]
    split
    · simp
    · simp only [List.mem_cons, ih]
      tauto

/-- Descending insertion preserves the descending pairwise order. -/
lemma pairwise_insertByLevelDesc (x : ConfidenceLevel) (l : List ConfidenceLevel)
    (h : List.Pairwise (fun a b : ConfidenceLevel => b.level ≤ a.level) l) :
    List.Pairwise (fun a b : ConfidenceLevel => b.level ≤ a.level)
      (insertByLevelDesc x l) := by
  induction l with
  | nil => simp [insertByLevelDesc]
  | cons y ys ih =>
    obtain ⟨hy, hys⟩ := List.pairwise_cons.mp h
    simp only [insertByLevelDesc]
    split
    · rename_i hlt
      refine List.pairwise_cons.mpr ⟨?_, h⟩
      intro z hz
      rcases List.mem_cons.mp hz with rfl | hz'
      · exact le_of_lt hlt
      · exact le_trans (hy z hz') (le_of_lt hlt)
    · rename_i hge
      refine List.pairwise_cons.mpr ⟨?_, ih hys⟩
      intro z hz
      rcases (mem_insertByLevelDesc x ys z).mp hz with rfl | hz'
      · exact le_of_not_lt hge
      · exact hy z hz'

/-- The comparator sort is descending in `level`. -/
lemma sortByLevelDesc_pairwise (l : List ConfidenceLevel) :
    List.Pairwise (fun a b : ConfidenceLevel => b.level ≤ a.level)
      (sortByLevelDesc l) := by
  induction l with
  | nil => simp [sortByLevelDesc]
  | cons x xs ih => exact pairwise_insertByLevelDesc x (sortByLevelDesc xs) ih

/-- C4 (amended): the z-score table supports exactly the levels
{0.68, 0.95, 0.99}; a configured level outside the table is silently
skipped (it contributes no band command), the supported levels all get their
band, and the invocation still succeeds with the main curve drawn. -/
theorem zScores_supported_spec :
    (∀ l : ℚ, (Z_SCORES l).isSome = true ↔
      (l = 68 / 100 ∨ l = 95 / 100 ∨ l = 99 / 100))
    ∧ (∀ (cfg : NormalDistributionChartConfig) (cmds : List DrawCmd),
        createNormalDistributionChart cfg = some cmds →
          bandLevels cmds = ((sortByLevelDesc cfg.confidenceLevels).filter
              (fun ci => (Z_SCORES ci.level).isSome)).map (fun ci => ci.level)
          ∧ (∀ lvl ∈ bandLevels cmds, (Z_SCORES lvl).isSome = true)
          ∧ DrawCmd.curveStroke (hexToARGB cfg.lineColor) ∈ cmds)
    ∧ (∀ cfg : NormalDistributionChartConfig,
        (createNormalDistributionChart cfg).isSome = true) := by
  refine ⟨?_, ?_, ?_⟩
  · intro l
    simp only [Z_SCORES]
    split_ifs <;> simp_all
  · intro cfg cmds h
    refine ⟨normalChart_bandLevels cfg cmds h, ?_, ?_⟩
    · intro lvl hlvl
      rw [normalChart_bandLevels cfg cmds h] at hlvl
      obtain ⟨ci, hci, rfl⟩ := List.mem_map.mp hlvl
      exact (List.mem_filter.mp hci).2
    · rw [createNormalDistributionChart_eq cfg] at h
      obtain rfl := (Option.some.injEq _ _).mp h
      simp
  · intro cfg
    rw [createNormalDistributionChart_eq cfg]
    rfl

/-- Counterexample for C4: level 0.95 is present in the z-score table (the
table is `{0.68: 1.0, 0.95: 1.96, 0.99: 2.58}`, not `{0.68, 0.99}`), and a
chart configured with the single level 0.95 does draw a band for it instead
of skipping it. -/
theorem zScores_table_has_095 :
    Z_SCORES (95 / 100) = some (196 / 100)
    ∧ bandLevels ((createNormalDistributionChart
        { confidenceLevels := [⟨95 / 100, "#504287F5"⟩] }).getD [])
      = [95 / 100] := by
  constructor
  · norm_num [Z_SCORES]
  · have h := normalChart_bandLevels
      { confidenceLevels := [⟨95 / 100, "#504287F5"⟩] } _
      (createNormalDistributionChart_eq _)
    rw [createNormalDistributionChart_eq _]
    simp only [Option.getD_some]
    rw [h]
    norm_num [sortByLevelDesc, insertByLevelDesc, Z_SCORES]

/-- Witness for C4: the clause about a successful invocation applied to the
default configuration, hypotheses discharged by the spelled-out command
list; the main curve is drawn. -/
theorem zScores_supported_spec_witness :
    DrawCmd.curveStroke (hexToARGB "#007AFF") ∈
      ((createNormalDistributionChart {}).getD []) := by
  have h := (zScores_supported_spec.2.1 {} _ (createNormalDistributionChart_eq {})).2.2
  rw [createNormalDistributionChart_eq {}]
  simp only [Option.getD_some]
  exact h

/-- C7: for every configuration (hence every permutation of the configured
`confidenceLevels`), the normal-distribution bands are drawn widest-first
(descending by level); with levels {0.95, 0.68} in either input order, the
0.95 band command precedes the 0.68 band command. -/
theorem confidenceBands_widestFirst :
    (∀ (cfg : NormalDistributionChartConfig) (cmds : List DrawCmd),
        createNormalDistributionChart cfg = some cmds →
        List.Pairwise (fun a b : ℚ => b ≤ a) (bandLevels cmds))
    ∧ (∀ c1 c2 : String,
        bandLevels ((createNormalDistributionChart
          { confidenceLevels := [⟨95 / 100, c1⟩, ⟨68 / 100, c2⟩] }).getD [])
          = [95 / 100, 68 / 100]
        ∧ bandLevels ((createNormalDistributionChart
          { confidenceLevels := [⟨68 / 100, c2⟩, ⟨95 / 100, c1⟩] }).getD [])
          = [95 / 100, 68 / 100]) := by
  constructor
  · intro cfg cmds h
    rw [normalChart_bandLevels cfg cmds h]
    refine List.pairwise_map.mpr ?_
    exact List.Pairwise.filter _ (sortByLevelDesc_pairwise cfg.confidenceLevels)
  · intro c1 c2
    constructor
    · have h := normalChart_bandLevels
        { confidenceLevels := [⟨95 / 100, c1⟩, ⟨68 / 100, c2⟩] } _
        (createNormalDistributionChart_eq _)
      rw [createNormalDistributionChart_eq _]
      simp only [Option.getD_some]
      rw [h]
      norm_num [sortByLevelDesc, insertByLevelDesc, Z_SCORES]
    · have h := normalChart_bandLevels
        { confidenceLevels := [⟨68 / 100, c2⟩, ⟨95 / 100, c1⟩] } _
        (createNormalDistributionChart_eq _)
      rw [createNormalDistributionChart_eq _]
      simp only [Option.getD_some]
      rw [h]
      norm_num [sortByLevelDesc, insertByLevelDesc, Z_SCORES]

/-- Witness for C7: the concrete two-level clause applied to the source's
default band colors, with the reversed input order. -/
theorem confidenceBands_widestFirst_witness :
    bandLevels ((createNormalDistributionChart
      { confidenceLevels := [⟨68 / 100, "#7877BEFD"⟩, ⟨95 / 100, "#504287F5"⟩] }).getD [])
      = [95 / 100, 68 / 100] :=
  (confidenceBands_widestFirst.2 "#504287F5" "#7877BEFD").2

/-! ## Helper lemmas on the scatter plot -/

/-- Decoded default background color. -/
lemma hexARGB_white : hexToARGB "#FFFFFF" = [255, 255, 255, 255] := by decide

/-- Decoded default scatter axis color. -/
lemma hexARGB_black : hexToARGB "#000000" = [255, 0, 0, 0] := by decide

/-- Decoded default regression-line color. -/
lemma hexARGB_blue : hexToARGB "#0000FF" = [255, 0, 0, 255] := by decide

/-- Decoded default scatter point color. -/
lemma hexARGB_tomato : hexToARGB "#FF6347" = [255, 255, 99, 71] := by decide

/-- A concrete scatter invocation: two points with distinct x and
`showConfidenceInterval` on. -/
def scatterTwoPointConfig : ScatterPlotConfig :=
  { data := some [⟨0, 0⟩, ⟨1, 1⟩], showConfidenceInterval := true }

/-- Full command list of the two-point scatter invocation: the regression
line is drawn, no band polygon is. -/
lemma scatterTwoPointConfig_cmds :
    createScatterPlot scatterTwoPointConfig =
      some [DrawCmd.clearBg [255, 255, 255, 255],
        DrawCmd.strokeLine 100 700 900 700 [255, 0, 0, 0],
        DrawCmd.strokeLine 100 700 100 100 [255, 0, 0, 0],
        DrawCmd.textLabel "산점도 그래프" 500 50,
        DrawCmd.textLabel "X축" 500 775,
        DrawCmd.textLabel "Y축" 40 400,
        DrawCmd.strokeLine 100 700 900 100 [255, 0, 0, 255],
        DrawCmd.fillCircle 100 700 10 [255, 255, 99, 71],
        DrawCmd.fillCircle 900 100 10 [255, 255, 99, 71]] := by
  norm_num [createScatterPlot, scatterTwoPointConfig, calculateLinearRegression,
    listMin, listMax, hexARGB_white, hexARGB_black, hexARGB_blue, hexARGB_tomato]

/-- C6: a scatter invocation over exactly 2 points with
`showConfidenceInterval = true` emits no confidence-band polygon (the band
needs `n > 2 && Sxx > 0`), while the regression line itself can still be
drawn (witnessed by the concrete two-point invocation). -/
theorem scatterPlot_twoPoints_noBand (cfg : ScatterPlotConfig) (data : List Point)
    (hdata : cfg.data = some data) (hlen : data.length = 2)
    (hci : cfg.showConfidenceInterval = true) :
    (∀ cmds, createScatterPlot cfg = some cmds →
      ∀ c ∈ cmds, ∀ reg res, c ≠ DrawCmd.ciBandFill reg res)
    ∧ DrawCmd.strokeLine 100 700 900 100 (hexToARGB "#0000FF")
        ∈ ((createScatterPlot scatterTwoPointConfig).getD []) := by
  constructor
  · intro cmds h c hc reg res
    simp only [createScatterPlot, hdata] at h
    rw [if_neg (by simp [hlen])] at h
    obtain rfl := (Option.some.injEq _ _).mp h
    rcases List.mem_append.mp hc with h12 | h3
    · rcases List.mem_append.mp h12 with h1 | h2
      · simp only [List.mem_cons, List.not_mem_nil, or_false] at h1
        rcases h1 with rfl | rfl | rfl | rfl | rfl | rfl <;> simp
      · rw [if_pos hci] at h2
        cases hreg : calculateLinearRegression data with
        | none =>
          rw [hreg] at h2
          simp at h2
        | some reg' =>
          rw [hreg] at h2
          dsimp only at h2
          have hn : reg'.n = data.length :=
            (calculateLinearRegression_some data reg' hreg).2.2.1
          rw [if_neg (show ¬(2 < reg'.n ∧ 0 < reg'.Sxx) by simp [hn, hlen])] at h2
          simp only [List.mem_cons, List.not_mem_nil, or_false] at h2
          subst h2
          simp
    · obtain ⟨q, hq, rfl⟩ := List.mem_map.mp h3
      simp
  · rw [scatterTwoPointConfig_cmds]
    simp [hexARGB_blue]

/-- Witness for C6: the no-band clause applied to the concrete two-point
invocation, hypotheses discharged by computation. -/
theorem scatterPlot_twoPoints_noBand_witness :
    DrawCmd.clearBg [255, 255, 255, 255] ≠
      DrawCmd.ciBandFill ⟨1, 0, 2, 1 / 2, 0, 0⟩ 100 :=
  (scatterPlot_twoPoints_noBand scatterTwoPointConfig [⟨0, 0⟩, ⟨1, 1⟩]
      rfl rfl rfl).1
    _ scatterTwoPointConfig_cmds _ (List.mem_cons_self _ _) ⟨1, 0, 2, 1 / 2, 0, 0⟩ 100

/-- Counterexample for C2: a scatter invocation whose data array is empty
(fewer than 2 points) does not fail fast: it succeeds, rendering the
empty-state placeholder. -/
theorem scatterPlot_emptyData_succeeds :
    createScatterPlot { data := some ([] : List Point) } =
      some [DrawCmd.clearBg [255, 255, 255, 255],
        DrawCmd.textLabel scatterNoDataText 500 400] := by
  norm_num [createScatterPlot, hexARGB_white]

/-- C2 (amended): a line chart fails fast (`null`, no rendering output) when
`data` is missing or has fewer than 2 points; a scatter plot fails fast only
when `data` is missing — with any present data array, even of 0 or 1 points,
it succeeds (an empty array renders the empty-state placeholder text). -/
theorem chartData_minPoints_spec :
    (∀ cfg : LineChartConfig, cfg.data = none → createLineChart cfg = none)
    ∧ (∀ (cfg : LineChartConfig) (d : List Point), cfg.data = some d →
        d.length < 2 → createLineChart cfg = none)
    ∧ (∀ cfg : ScatterPlotConfig, cfg.data = none → createScatterPlot cfg = none)
    ∧ (∀ (cfg : ScatterPlotConfig) (d : List Point), cfg.data = some d →
        (createScatterPlot cfg).isSome = true)
    ∧ (∀ cfg : ScatterPlotConfig, cfg.data = some ([] : List Point) →
        createScatterPlot cfg = some
          [DrawCmd.clearBg (hexToARGB cfg.backgroundColor),
           DrawCmd.textLabel scatterNoDataText ((cfg.width : ℚ) / 2)
             ((cfg.height : ℚ) / 2)]) := by
  refine ⟨?_, ?_, ?_, ?_, ?_⟩
  · intro cfg h
    simp [createLineChart, h]
  · intro cfg d h hl
    simp only [createLineChart, h]
    rw [if_pos hl]
  · intro cfg h
    simp [createScatterPlot, h]
  · intro cfg d h
    simp only [createScatterPlot, h]
    split <;> rfl
  · intro cfg h
    simp [createScatterPlot, h]

/-- Witness for C2: the line-chart clause applied to a one-point data array,
hypotheses discharged by computation. -/
theorem chartData_minPoints_spec_witness :
    createLineChart { data := some [⟨0, 0⟩] } = none :=
  chartData_minPoints_spec.2.1 { data := some [⟨0, 0⟩] } [⟨0, 0⟩] rfl (by norm_num)

/-- C5: for a successful regression, `Sxx` and `residualStdErr` are `0` when
`n < 3`; when `n ≥ 3`, `Sxx = Σ(x - x̄)²` and
`residualStdErr = sqrt(Σ(y - ŷ)² / (n - 2))`; and for `n = 3` perfectly
collinear points `residualStdErr` is exactly `0`. -/
theorem regression_band_fields (data : List Point) :
    (∀ r : RegressionResult, calculateLinearRegression data = some r →
      data.length < 3 → r.Sxx = 0 ∧ residualStdErr r = 0)
    ∧ (∀ r : RegressionResult, calculateLinearRegression data = some r →
        3 ≤ data.length →
        r.Sxx = (data.map (fun p => (p.x - r.meanX) * (p.x - r.meanX))).sum
        ∧ residualStdErr r = Real.sqrt
            ((((data.map (fun p => (p.y - (r.slope * p.x + r.intercept)) *
                (p.y - (r.slope * p.x + r.intercept)))).sum : ℚ) : ℝ)
              / ((data.length : ℝ) - 2)))
    ∧ (∀ p1 p2 p3 : Point, ∀ a b : ℚ,
        p1.y = a * p1.x + b → p2.y = a * p2.x + b → p3.y = a * p3.x + b →
        ∀ r : RegressionResult, calculateLinearRegression [p1, p2, p3] = some r →
          residualStdErr r = 0) := by
  refine ⟨?_, ?_, ?_⟩
  · intro r hr hlt
    obtain ⟨-, -, -, -, -, -, hlow, -⟩ := calculateLinearRegression_some data r hr
    obtain ⟨hSxx, hssr⟩ := hlow hlt
    refine ⟨hSxx, ?_⟩
    simp [residualStdErr, hssr]
  · intro r hr hge
    obtain ⟨-, -, hn, -, -, -, -, hhigh⟩ := calculateLinearRegression_some data r hr
    obtain ⟨hSxx, hssr⟩ := hhigh hge
    refine ⟨hSxx, ?_⟩
    rw [residualStdErr, hssr, hn]
  · intro p1 p2 p3 a b hy1 hy2 hy3 r hr
    obtain ⟨-, hden, -, hslope, hintercept, -, -, hhigh⟩ :=
      calculateLinearRegression_some [p1, p2, p3] r hr
    obtain ⟨-, hssr⟩ := hhigh (by simp)
    have hD : regressionDenominator [p1, p2, p3] ≠ 0 := hden
    have hsl : r.slope = a := by
      rw [hslope]
      rw [div_eq_iff hD]
      simp only [regressionDenominator, List.map_cons, List.map_nil, List.sum_cons,
        List.sum_nil, List.length_cons, List.length_nil]
      rw [hy1, hy2, hy3]
      push_cast
      ring
    have hic : r.intercept = b := by
      rw [hintercept, hsl]
      simp only [List.map_cons, List.map_nil, List.sum_cons, List.sum_nil,
        List.length_cons, List.length_nil]
      rw [hy1, hy2, hy3]
      push_cast
      ring
    have hzero : r.ssr = 0 := by
      rw [hssr, hsl, hic]
      simp only [List.map_cons, List.map_nil, List.sum_cons, List.sum_nil]
      rw [hy1, hy2, hy3]
      ring
    simp [residualStdErr, hzero]

/-- Witness for C5: the collinear clause at the data set
`{(1,1),(2,2),(3,3)}` (on the line `y = x`), hypotheses discharged by
computation. -/
theorem regression_band_fields_witness :
    residualStdErr ⟨1, 0, 3, 2, 2, 0⟩ = 0 :=
  (regression_band_fields [⟨1, 1⟩, ⟨2, 2⟩, ⟨3, 3⟩]).2.2 ⟨1, 1⟩ ⟨2, 2⟩ ⟨3, 3⟩ 1 0
    (by norm_num) (by norm_num) (by norm_num) ⟨1, 0, 3, 2, 2, 0⟩
    (by norm_num [calculateLinearRegression])

/-! ## Helper lemmas on the sampling loops -/

/-- A sample list with a valid head has a first run starting at that head. -/
lemma finiteRuns_head (k' : ℕ) (y' : ℚ) (rest' : List (ℕ × EvalOutcome)) :
    ∃ r0 rs, finiteRuns ((k', EvalOutcome.finite y') :: rest')
      = ((k', y') :: r0) :: rs := by
  have heq : finiteRuns ((k', EvalOutcome.finite y') :: rest')
      = if headValid rest' then
          (match finiteRuns rest' with
           | r :: rs => ((k', y') :: r) :: rs
           | [] => [[(k', y')]])
        else [(k', y')] :: finiteRuns rest' := rfl
  rw [heq]
  cases hv : headValid rest'
  · simp only [Bool.false_eq_true, if_false]
    exact ⟨[], finiteRuns rest', rfl⟩
  · simp only [if_true]
    cases hfr : finiteRuns rest' with
    | nil => exact ⟨[], [], rfl⟩
    | cons r rs => exact ⟨r, rs, rfl⟩

/-- Refinement of the polar loop: starting fresh it draws exactly the
spec-side segmentation of the samples (each maximal valid run a `moveTo`
plus `lineTo`s); started mid-segment it draws the same with the first step
continued instead of restarted. -/
lemma polarSampleLoop_spec (l : List (ℕ × EvalOutcome)) :
    polarSampleLoop l false = segJoin (finiteRuns l)
    ∧ polarSampleLoop l true =
      (if headValid l then demoteFirst (segJoin (finiteRuns l))
       else segJoin (finiteRuns l)) := by
  induction l with
  | nil => exact ⟨rfl, rfl⟩
  | cons s rest ih =>
    obtain ⟨k, e⟩ := s
    cases e with
    | throws => exact ⟨ih.1, ih.1⟩
    | nonFinite => exact ⟨ih.1, ih.1⟩
    | finite y =>
      cases hv : headValid rest with
      | false =>
        have hfr : finiteRuns ((k, EvalOutcome.finite y) :: rest)
            = [(k, y)] :: finiteRuns rest := by
          simp [finiteRuns, hv]
        have hrt : polarSampleLoop rest true = segJoin (finiteRuns rest) := by
          rw [ih.2, if_neg (by simp [hv])]
        constructor
        · show (true, k, y) :: polarSampleLoop rest true = _
          rw [hrt, hfr]
          simp [segJoin]
        · show (false, k, y) :: polarSampleLoop rest true = _
          rw [hrt, hfr,
            if_pos (show headValid ((k, EvalOutcome.finite y) :: rest) = true from rfl)]
          simp [segJoin, demoteFirst]
      | true =>
        cases rest with
        | nil => simp [headValid] at hv
        | cons s' rest' =>
          obtain ⟨k', e'⟩ := s'
          cases e' with
          | throws => simp [headValid] at hv
          | nonFinite => simp [headValid] at hv
          | finite y' =>
            obtain ⟨r0, rs, hfr'⟩ := finiteRuns_head k' y' rest'
            have hfr : finiteRuns ((k, EvalOutcome.finite y) ::
                (k', EvalOutcome.finite y') :: rest')
                = ((k, y) :: (k', y') :: r0) :: rs := by
              have heq : finiteRuns ((k, EvalOutcome.finite y) ::
                  (k', EvalOutcome.finite y') :: rest')
                  = match finiteRuns ((k', EvalOutcome.finite y') :: rest') with
                    | r :: rs => ((k, y) :: r) :: rs
                    | [] => [[(k, y)]] := rfl
              rw [heq, hfr']
            have hrt : polarSampleLoop ((k', EvalOutcome.finite y') :: rest') true
                = demoteFirst (segJoin (finiteRuns
                    ((k', EvalOutcome.finite y') :: rest'))) := by
              rw [ih.2, if_pos hv]
            constructor
            · show (true, k, y) ::
                polarSampleLoop ((k', EvalOutcome.finite y') :: rest') true = _
              rw [hrt, hfr', hfr]
              simp [segJoin, demoteFirst]
            · show (false, k, y) ::
                polarSampleLoop ((k', EvalOutcome.finite y') :: rest') true = _
              rw [hrt, hfr', hfr,
                if_pos (show headValid ((k, EvalOutcome.finite y) ::
                  (k', EvalOutcome.finite y') :: rest') = true from rfl)]
              simp [segJoin, demoteFirst]

/-- Refinement of the cartesian loop: any throwing sample aborts the whole
loop (`none`); without throws it draws exactly the spec-side segmentation of
the samples, non-finite samples acting only as segment breaks. -/
lemma cartSampleLoop_spec (l : List (ℕ × EvalOutcome)) :
    (hasThrow l = true → ∀ b, cartSampleLoop l b = none)
    ∧ (hasThrow l = false →
        cartSampleLoop l true = some (segJoin (finiteRuns l))
        ∧ cartSampleLoop l false =
          some (if headValid l then demoteFirst (segJoin (finiteRuns l))
            else segJoin (finiteRuns l))) := by
  induction l with
  | nil =>
    constructor
    · intro h
      simp [hasThrow] at h
    · intro _
      exact ⟨rfl, rfl⟩
  | cons s rest ih =>
    obtain ⟨k, e⟩ := s
    cases e with
    | throws =>
      constructor
      · intro _ b
        rfl
      · intro h
        simp [hasThrow] at h
    | nonFinite =>
      have hht : hasThrow ((k, EvalOutcome.nonFinite) :: rest) = hasThrow rest := by
        simp [hasThrow]
      constructor
      · intro h b
        exact ih.1 (by rwa [hht] at h) true
      · intro h
        obtain ⟨h1, -⟩ := ih.2 (by rwa [hht] at h)
        exact ⟨h1, h1⟩
    | finite y =>
      have hht : hasThrow ((k, EvalOutcome.finite y) :: rest) = hasThrow rest := by
        simp [hasThrow]
      constructor
      · intro h b
        show (cartSampleLoop rest false).map _ = none
        rw [ih.1 (by rwa [hht] at h) false]
        rfl
      · intro h
        have hrest := ih.2 (by rwa [hht] at h)
        cases hv : headValid rest with
        | false =>
          have hrt : cartSampleLoop rest false = some (segJoin (finiteRuns rest)) := by
            rw [hrest.2, if_neg (by simp [hv])]
          have hfr : finiteRuns ((k, EvalOutcome.finite y) :: rest)
              = [(k, y)] :: finiteRuns rest := by
            simp [finiteRuns, hv]
          constructor
          · show (cartSampleLoop rest false).map _ = _
            rw [hrt]
            simp only [Option.map_some']
            rw [hfr]
            simp [segJoin]
          · show (cartSampleLoop rest false).map _ = _
            rw [hrt]
            simp only [Option.map_some']
            rw [if_pos (show headValid ((k, EvalOutcome.finite y) :: rest) = true from rfl),
              hfr]
            simp [segJoin, demoteFirst]
        | true =>
          cases rest with
          | nil => simp [headValid] at hv
          | cons s' rest' =>
            obtain ⟨k', e'⟩ := s'
            cases e' with
            | throws => simp [headValid] at hv
            | nonFinite => simp [headValid] at hv
            | finite y' =>
              obtain ⟨r0, rs, hfr'⟩ := finiteRuns_head k' y' rest'
              have hfr : finiteRuns ((k, EvalOutcome.finite y) ::
                  (k', EvalOutcome.finite y') :: rest')
                  = ((k, y) :: (k', y') :: r0) :: rs := by
                have heq : finiteRuns ((k, EvalOutcome.finite y) ::
                    (k', EvalOutcome.finite y') :: rest')
                    = match finiteRuns ((k', EvalOutcome.finite y') :: rest') with
                      | r :: rs => ((k, y) :: r) :: rs
                      | [] => [[(k, y)]] := rfl
                rw [heq, hfr']
              have hrt : cartSampleLoop ((k', EvalOutcome.finite y') :: rest') false
                  = some (demoteFirst (segJoin (finiteRuns
                      ((k', EvalOutcome.finite y') :: rest')))) := by
                rw [hrest.2, if_pos hv]
              constructor
              · show (cartSampleLoop ((k', EvalOutcome.finite y') :: rest') false).map _ = _
                rw [hrt]
                simp only [Option.map_some']
                rw [hfr', hfr]
                simp [segJoin, demoteFirst]
              · show (cartSampleLoop ((k', EvalOutcome.finite y') :: rest') false).map _ = _
                rw [hrt]
                simp only [Option.map_some']
                rw [if_pos (show headValid ((k, EvalOutcome.finite y) ::
                    (k', EvalOutcome.finite y') :: rest') = true from rfl),
                  hfr', hfr]
                simp [segJoin, demoteFirst]

/-- An evaluator that throws at `x = 0` and is finite elsewhere
(like `1/x`-style evaluation raising at the singularity). -/
def throwingEval (x : ℚ) : EvalOutcome :=
  if x = 0 then EvalOutcome.throws else EvalOutcome.finite x

/-- Counterexample for C1: in the cartesian function graph a single sample
whose evaluation throws is escalated: column 2 of this 4-pixel-wide chart
evaluates the formula at `mathX = 0`, the evaluator throws, and the whole
invocation returns the failure marker instead of a path. -/
theorem functionGraph_throw_escalates :
    hasThrow (functionGraphSamples throwingEval 4 ((4 : ℚ) / 2) 1) = true
    ∧ createFunctionGraph
        { formula := some throwingEval, width := 4, height := 4, scale := 1 } = none := by
  constructor
  · norm_num [hasThrow, functionGraphSamples, throwingEval, List.range_succ]
  · have h := (cartSampleLoop_spec
      (functionGraphSamples throwingEval 4 ((4 : ℚ) / 2) 1)).1
      (by norm_num [hasThrow, functionGraphSamples, throwingEval, List.range_succ]) true
    simp only [createFunctionGraph]
    push_cast
    rw [h]
    rfl

/-- C1 (amended): per-sample failures are treated as path discontinuities
and are not escalated, with one exception.  In the polar graph both a
throwing and a non-finite sample merely end the current segment, a new
segment starts at the next valid sample, and the invocation always succeeds
with the segmented path.  In the cartesian function graph this holds for
non-finite samples only: if any sample evaluation throws, the invocation
fails (returns the failure marker) because the loop has no per-sample
handler. -/
theorem sampler_discontinuity_spec :
    (∀ (cfg : FunctionGraphConfig) (f : ℚ → EvalOutcome), cfg.formula = some f →
      hasThrow (functionGraphSamples f cfg.width ((cfg.width : ℚ) / 2) cfg.scale) = true →
      createFunctionGraph cfg = none)
    ∧ (∀ (cfg : FunctionGraphConfig) (f : ℚ → EvalOutcome), cfg.formula = some f →
        hasThrow (functionGraphSamples f cfg.width ((cfg.width : ℚ) / 2) cfg.scale) = false →
        ∃ cmds, createFunctionGraph cfg = some cmds
          ∧ DrawCmd.cartPath
              ((segJoin (finiteRuns (functionGraphSamples f cfg.width
                  ((cfg.width : ℚ) / 2) cfg.scale))).map
                (fun s => (s.1, ((s.2.1 : ℚ)), (cfg.height : ℚ) / 2 - s.2.2 * cfg.scale)))
              (hexToARGB cfg.lineColor) ∈ cmds)
    ∧ (∀ (cfg : PolarGraphConfig) (f : ℝ → EvalOutcome), cfg.formula = some f →
        ∃ cmds, createPolarGraph cfg = some cmds
          ∧ DrawCmd.polarPath
              (segJoin (finiteRuns (polarGraphSamples f cfg.rotations)))
              (hexToARGB cfg.lineColor) ∈ cmds) := by
  refine ⟨?_, ?_, ?_⟩
  · intro cfg f hf hthrow
    simp only [createFunctionGraph, hf]
    rw [(cartSampleLoop_spec _).1 hthrow true]
    rfl
  · intro cfg f hf hthrow
    simp only [createFunctionGraph, hf]
    rw [((cartSampleLoop_spec _).2 hthrow).1]
    simp only [Option.map_some']
    exact ⟨_, rfl, by simp⟩
  · intro cfg f hf
    simp only [createPolarGraph, hf]
    rw [(polarSampleLoop_spec _).1]
    exact ⟨_, rfl, by simp⟩

/-- Witness for C1: the cartesian no-throw clause applied to an evaluator
that is finite everywhere on a 2-pixel-wide chart, hypotheses discharged by
computation. -/
theorem sampler_discontinuity_spec_witness :
    ∃ cmds, createFunctionGraph
        { formula := some (fun x => EvalOutcome.finite x),
          width := 2, height := 2, scale := 1 } = some cmds
      ∧ DrawCmd.cartPath
          ((segJoin (finiteRuns (functionGraphSamples (fun x => EvalOutcome.finite x) 2
              ((2 : ℚ) / 2) 1))).map
            (fun s => (s.1, ((s.2.1 : ℚ)), (2 : ℚ) / 2 - s.2.2 * 1)))
          (hexToARGB "#FF0000") ∈ cmds := by
  have h := sampler_discontinuity_spec.2.1
    { formula := some (fun x => EvalOutcome.finite x),
      width := 2, height := 2, scale := 1 }
    (fun x => EvalOutcome.finite x) rfl
    (by norm_num [hasThrow, functionGraphSamples, List.range_succ])
  simpa using h

end Chart
